import Mathlib

/-!
# Verification of the circuit-learning-game analysis and simulation core

Shallow embedding of the circuit topology analysis and electrical simulation
core (`CircuitSimulator.ts`, `CircuitValidator.ts`,
`electrical-components.ts`) over exact rational arithmetic.  JavaScript
doubles are modelled by `ℚ`; the only double-specific behaviour the source
relies on (guarding the division by a non-positive total resistance) is
embedded exactly as written.

Components carry the property-bag fields the core reads (`resistance`,
`voltage`, `forwardVoltage`, `isLit`, `brightness`, and the wire point count
which determines whether a wire exposes terminals).  A missing property is
`none`; the JavaScript `x || default` idiom on numbers treats both `undefined`
and `0` as absent and is embedded accordingly.
-/

/-- Component kind tag (`type` field in the source). Only these four kinds
participate in validation and simulation. -/
inductive CompKind where
  | resistor
  | battery
  | led
  | wire
deriving DecidableEq, Repr

/-- A component: identity, kind and the property-bag fields read by the
analysis core.  `wirePoints` is the length of a wire's point list (a wire
exposes its `start`/`end` terminals only when it has at least two points). -/
structure Component where
  id : String
  kind : CompKind
  resistance : Option ℚ := none
  voltage : Option ℚ := none
  forwardVoltage : Option ℚ := none
  isLit : Bool := false
  brightness : ℚ := 0
  wirePoints : Nat := 2
deriving DecidableEq, Repr

/-- A point-to-point connection between two component terminals. -/
structure Connection where
  id : String
  fromComponent : String
  fromTerminal : String
  toComponent : String
  toTerminal : String
deriving DecidableEq, Repr

/-- Terminal directionality tags (`Terminal.type` in the source). -/
inductive TermType where
  | input
  | output
  | bidirectional
deriving DecidableEq, Repr

/-- `Resistor.getResistance`: `this.getProperty('resistance') || 1000`.
A missing or zero (JavaScript-falsy) stored resistance yields the 1000 Ω
default. -/
def Component.getResistance (c : Component) : ℚ :=
  match c.resistance with
  | none => 1000
  | some r => if r = 0 then 1000 else r

/-- `Battery.getVoltage`: `this.getProperty('voltage') || 9`. -/
def Component.getVoltage (c : Component) : ℚ :=
  match c.voltage with
  | none => 9
  | some v => if v = 0 then 9 else v

/-- `LED.getForwardVoltage`: `this.getProperty('forwardVoltage') || 2.0`. -/
def Component.getForwardVoltage (c : Component) : ℚ :=
  match c.forwardVoltage with
  | none => 2
  | some v => if v = 0 then 2 else v

/-- `Resistor.setResistance`: stores the value only when it is positive;
non-positive values are silently ignored. -/
def Component.setResistance (c : Component) (r : ℚ) : Component :=
  if 0 < r then { c with resistance := some r } else c

/-- `LED.setLit`. -/
def Component.setLit (c : Component) (lit : Bool) : Component :=
  { c with isLit := lit }

/-- `LED.setBrightness`: clamps into `[0,1]` and sets `isLit` to
`clamped > 0`. -/
def Component.setBrightness (c : Component) (b : ℚ) : Component :=
  let clamped := max 0 (min 1 b)
  { c with brightness := clamped, isLit := decide (clamped > 0) }

/-- The terminal list of a component, with directionality, as produced by
each `initializeTerminals` implementation.  A wire with fewer than two
points exposes no terminals. -/
def Component.terminalList (c : Component) : List (String × TermType) :=
  match c.kind with
  | .resistor => [("terminal1", .bidirectional), ("terminal2", .bidirectional)]
  | .battery => [("positive", .output), ("negative", .input)]
  | .led => [("anode", .input), ("cathode", .output)]
  | .wire =>
      if c.wirePoints ≥ 2 then [("start", .bidirectional), ("end", .bidirectional)]
      else []

/-- `getTerminals`, projected to terminal ids. -/
def Component.getTerminals (c : Component) : List String :=
  c.terminalList.map Prod.fst

/-- `components.find(c => c.id === x)`. -/
def findComponent (cs : List Component) (x : String) : Option Component :=
  cs.find? (fun c => c.id = x)

/-- The numerical tolerance constant of the simulator (`1e-9`). -/
def tolerance : ℚ := 1 / 1000000000

/-- The `componentId:terminalId` key used for graph vertices and node
membership throughout the source. -/
def termKey (comp term : String) : String := comp ++ ":" ++ term

/-- Key of a connection's `from` endpoint. -/
def Connection.fromKey (c : Connection) : String :=
  termKey c.fromComponent c.fromTerminal

/-- Key of a connection's `to` endpoint. -/
def Connection.toKey (c : Connection) : String :=
  termKey c.toComponent c.toTerminal

/-- `terminal.split(':')[0]`: the component id part of a terminal key
(the substring before the first colon). -/
def keyComponent (k : String) : String := (k.splitOn ":").headD ""

/-- JavaScript `Set` insertion: append if not already present (insertion
order preserved, duplicates dropped). -/
def setInsert (l : List String) (x : String) : List String :=
  if x ∈ l then l else l ++ [x]

/-- Fold a list into a JavaScript-`Set`-like deduplicated list, keeping the
first occurrence of each element. -/
def setOfList (l : List String) : List String :=
  l.foldl setInsert []

/-! ## Circuit simulator (`CircuitSimulator.ts`) -/

/-- A simulation node: an equivalence class of terminals. -/
structure SimulationNode where
  id : String
  voltage : ℚ
  components : List String
  terminals : List String
deriving DecidableEq, Repr

/-- Per-component electrical state.  `brightness` models
`additionalProperties.brightness` (absent for non-diode kinds). -/
structure ComponentState where
  componentId : String
  voltage : ℚ
  current : ℚ
  power : ℚ
  isActive : Bool
  brightness : Option ℚ := none
deriving DecidableEq, Repr

namespace CircuitSimulator

/-- `components.filter(c => c.type === 'battery')`. -/
def batteriesOf (cs : List Component) : List Component :=
  cs.filter (fun c => c.kind = .battery)

/-- `components.filter(c => c.type === 'resistor')`. -/
def resistorsOf (cs : List Component) : List Component :=
  cs.filter (fun c => c.kind = .resistor)

/-- `components.filter(c => c.type === 'led')`. -/
def ledsOf (cs : List Component) : List Component :=
  cs.filter (fun c => c.kind = .led)

/-- `batteries.reduce((sum, b) => sum + b.getVoltage(), 0)`. -/
def totalVoltage (cs : List Component) : ℚ :=
  ((batteriesOf cs).map Component.getVoltage).sum

/-- Connections that touch a given component id. -/
def connectionsOf (id : String) (conns : List Connection) : List Connection :=
  conns.filter (fun c => c.fromComponent = id ∨ c.toComponent = id)

/-- The other endpoint of a connection relative to a component id:
`conn.fromComponent === id ? conn.toComponent : conn.fromComponent`. -/
def otherEndpoint (id : String) (c : Connection) : String :=
  if c.fromComponent = id then c.toComponent else c.fromComponent

/-- The `Set` of other-endpoint component ids of a resistor, in insertion
order (`r1OtherComponents` / `r2OtherComponents` in the source). -/
def otherEndpoints (r : Component) (conns : List Connection) : List String :=
  setOfList ((connectionsOf r.id conns).map (otherEndpoint r.id))

/-- The source's set comparison: equal sizes and every element of the first
set contained in the second. -/
def sameEndpointSets (r1 r2 : Component) (conns : List Connection) : Bool :=
  let s1 := otherEndpoints r1 conns
  let s2 := otherEndpoints r2 conns
  decide (s1.length = s2.length) && s1.all (fun x => decide (x ∈ s2))

/-- `areResistorsInParallel`: true iff some ordered pair `i < j` of resistors
has identical other-endpoint sets. -/
def areResistorsInParallel (resistors : List Component) (conns : List Connection) : Bool :=
  if resistors.length < 2 then false
  else
    resistors.enum.any (fun p =>
      resistors.enum.any (fun q =>
        decide (p.1 < q.1) && sameEndpointSets p.2 q.2 conns))

/-- The total resistance of the resistor set as computed inside
`calculateCircuitCurrent`: reciprocal-sum rule when classified parallel,
plain sum otherwise.  (In the source a zero reciprocal sum would produce
`Infinity` and hence zero final current; in `ℚ`, `0⁻¹ = 0` trips the
non-positive-resistance guard instead, giving the same zero current.) -/
def equivalentResistance (resistors : List Component) (conns : List Connection) : ℚ :=
  if areResistorsInParallel resistors conns = true ∧ resistors.length > 1 then
    ((resistors.map (fun r => (Component.getResistance r)⁻¹)).sum)⁻¹
  else
    (resistors.map Component.getResistance).sum

/-- The total circuit resistance at the division guard of
`calculateCircuitCurrent`, after each conducting LED has contributed its
fixed 100 Ω placeholder resistance. -/
def circuitTotalResistance (cs : List Component) (conns : List Connection) : ℚ :=
  equivalentResistance (resistorsOf cs) conns + 100 * ((ledsOf cs).length : ℚ)

/-- `calculateCircuitCurrent`.  The source's LED loop that adds 100 Ω per
conducting LED and early-returns 0 on the first non-conducting LED is
embedded as: return 0 if any LED has `totalVoltage < forwardVoltage`,
otherwise add `100 * #LEDs`; similarly the effective-voltage loop subtracts
the sum of all forward voltages (all LEDs conduct on that branch). -/
def calculateCircuitCurrent (cs : List Component) (conns : List Connection) : ℚ :=
  let batteries := batteriesOf cs
  let leds := ledsOf cs
  if batteries.isEmpty then 0
  else
    let totalV := totalVoltage cs
    if leds.any (fun led => decide (totalV < led.getForwardVoltage)) then 0
    else
      let totalR := circuitTotalResistance cs conns
      if totalR ≤ 0 then 0
      else
        let effectiveVoltage := totalV - (leds.map Component.getForwardVoltage).sum
        max 0 (effectiveVoltage / totalR)

/-- The state computed for one component inside `calculateComponentStates`. -/
def componentState (cs : List Component) (conns : List Connection) (c : Component) :
    ComponentState :=
  match c.kind with
  | .resistor =>
      let resistance := c.getResistance
      if areResistorsInParallel (resistorsOf cs) conns = true ∧ (resistorsOf cs).length > 1 then
        let totalV := totalVoltage cs
        let current := totalV / resistance
        { componentId := c.id, voltage := totalV, current := current,
          power := current * totalV, isActive := decide (current > tolerance) }
      else
        let current := calculateCircuitCurrent cs conns
        let voltage := current * resistance
        { componentId := c.id, voltage := voltage, current := current,
          power := current * voltage, isActive := decide (current > tolerance) }
  | .battery =>
      let voltage := c.getVoltage
      let current := calculateCircuitCurrent cs conns
      { componentId := c.id, voltage := voltage, current := current,
        power := current * voltage, isActive := true }
  | .led =>
      let forwardVoltage := c.getForwardVoltage
      let circuitCurrent := calculateCircuitCurrent cs conns
      let totalV := totalVoltage cs
      let otherResistance := ((resistorsOf cs).map Component.getResistance).sum
      let voltageAcrossLED := totalV - circuitCurrent * otherResistance
      if voltageAcrossLED ≥ forwardVoltage ∧ circuitCurrent > tolerance then
        { componentId := c.id, voltage := voltageAcrossLED, current := circuitCurrent,
          power := circuitCurrent * voltageAcrossLED, isActive := true,
          brightness := some (min (circuitCurrent / (1 / 50)) 1) }
      else
        { componentId := c.id, voltage := 0, current := 0, power := 0,
          isActive := false, brightness := some 0 }
  | .wire =>
      { componentId := c.id, voltage := 0, current := 0, power := 0, isActive := false }

/-- JavaScript `Map.set` on a state map keyed by component id: replace in
place when the key exists, append otherwise. -/
def stateMapSet (m : List ComponentState) (s : ComponentState) : List ComponentState :=
  if m.any (fun t => t.componentId = s.componentId) then
    m.map (fun t => if t.componentId = s.componentId then s else t)
  else m ++ [s]

/-- `calculateComponentStates`: one state per component, keyed by id. -/
def calculateComponentStates (cs : List Component) (conns : List Connection) :
    List ComponentState :=
  cs.foldl (fun m c => stateMapSet m (componentState cs conns c)) []

/-- `componentStates.get(id)`. -/
def stateLookup (m : List ComponentState) (id : String) : Option ComponentState :=
  m.find? (fun s => s.componentId = id)

/-- The per-component write-back of `updateComponentProperties`: LEDs get
`setLit(state.isActive)` and then `setBrightness(state.brightness)` when a
brightness was computed; every other kind is untouched. -/
def updateLED (m : List ComponentState) (c : Component) : Component :=
  match stateLookup m c.id with
  | none => c
  | some s =>
      if c.kind = .led then
        let c1 := c.setLit s.isActive
        match s.brightness with
        | some b => c1.setBrightness b
        | none => c1
      else c

/-- `updateComponentProperties`, returning the mutated component list. -/
def updateComponentProperties (cs : List Component) (m : List ComponentState) :
    List Component :=
  cs.map (updateLED m)

/-- Result triple of the simulator-internal validation helpers. -/
structure ConnVal where
  isValid : Bool
  errors : List String
  warnings : List String
deriving DecidableEq, Repr

/-- The component lookup map of `validateConnections`
(`componentMap.get`): a JavaScript `Map` built by successive `set`, so the
last occurrence of a duplicated id wins. -/
def componentMapGet (cs : List Component) (x : String) : Option Component :=
  (cs.filter (fun c => c.id = x)).getLast?

/-- The per-connection checks of `validateConnections`, with the source's
`continue` semantics (an error stops further checks for that connection). -/
def connectionCheck (cs : List Component) (conn : Connection) :
    List String × List String :=
  match componentMapGet cs conn.fromComponent with
  | none =>
      (["Connection " ++ conn.id ++ ": Component " ++ conn.fromComponent ++ " not found"], [])
  | some fromComp =>
    match componentMapGet cs conn.toComponent with
    | none =>
        (["Connection " ++ conn.id ++ ": Component " ++ conn.toComponent ++ " not found"], [])
    | some toComp =>
      match fromComp.terminalList.find? (fun t => t.1 = conn.fromTerminal) with
      | none =>
          (["Connection " ++ conn.id ++ ": Terminal " ++ conn.fromTerminal ++
            " not found on component " ++ conn.fromComponent], [])
      | some fromT =>
        match toComp.terminalList.find? (fun t => t.1 = conn.toTerminal) with
        | none =>
            (["Connection " ++ conn.id ++ ": Terminal " ++ conn.toTerminal ++
              " not found on component " ++ conn.toComponent], [])
        | some toT =>
            ([],
              (if fromT.2 = .input ∧ toT.2 = .input then
                ["Connection " ++ conn.id ++
                  ": Connecting two input terminals may not work as expected"]
              else []) ++
              (if fromT.2 = .output ∧ toT.2 = .output then
                ["Connection " ++ conn.id ++
                  ": Connecting two output terminals may cause conflicts"]
              else []))

/-- `validateConnections`. -/
def validateConnections (cs : List Component) (conns : List Connection) : ConnVal :=
  let errors := conns.flatMap (fun c => (connectionCheck cs c).1)
  let warnings := conns.flatMap (fun c => (connectionCheck cs c).2)
  { isValid := errors.isEmpty, errors := errors, warnings := warnings }

/-- The disconnected-component warning of the simulator-internal
`validateCircuit` for one component. -/
def disconnectedWarning (conns : List Connection) (c : Component) : Option String :=
  if c.id ∉ conns.flatMap (fun c => [c.fromComponent, c.toComponent]) ∧ c.kind ≠ .wire then
    some ("Component " ++ c.id ++ " is not connected to the circuit")
  else none

/-- The simplified wire-bridges-both-terminals short-circuit check of the
simulator-internal `validateCircuit`, for one battery and one of its
connections. -/
def wireBridgeError (cs : List Component) (conns : List Connection)
    (battery : Component) (connection : Connection) : List String :=
  let otherComponent := otherEndpoint battery.id connection
  match findComponent cs otherComponent with
  | some oc =>
      if oc.kind = .wire then
        let wireConnections := connectionsOf otherComponent conns
        let connectsToBattery := wireConnections.filter (fun c =>
          c.fromComponent = battery.id ∨ c.toComponent = battery.id)
        if connectsToBattery.length ≥ 2 then
          let terminals := connectsToBattery.map (fun c =>
            if c.fromComponent = battery.id then c.fromTerminal else c.toTerminal)
          if "positive" ∈ terminals ∧ "negative" ∈ terminals then
            ["Short circuit detected: Battery " ++ battery.id ++
              " terminals are directly connected"]
          else []
        else []
      else []
  | none => []

/-- The simulator-internal `validateCircuit`: disconnected-component
warnings, the at-least-one-battery error, and the simplified
wire-bridges-both-terminals short-circuit error. -/
def simValidateCircuit (cs : List Component) (conns : List Connection) : ConnVal :=
  let warnings := cs.filterMap (disconnectedWarning conns)
  let sources := batteriesOf cs
  let noSourceErrors :=
    if sources.isEmpty then ["Circuit must contain at least one voltage source (battery)"]
    else []
  let shortErrors := sources.flatMap (fun battery =>
    (connectionsOf battery.id conns).flatMap (wireBridgeError cs conns battery))
  let errors := noSourceErrors ++ shortErrors
  { isValid := errors.isEmpty, errors := errors, warnings := warnings }

/-! ### `buildCircuitNodes`

The union-by-relabelling grouping.  Internal node ids `node_${counter}` are
modelled by their counter value (the decimal strings `node_k` are in
bijection with `ℕ`); the final `SimulationNode.id` strings are produced at
the end, exactly as the source's map keys. -/

/-- Internal grouping state: `terminalToNode`, `nodeGroups`, `nodeCounter`. -/
structure NodeState where
  t2n : List (String × Nat)
  groups : List (Nat × List String)
  counter : Nat

/-- `terminalToNode.get`. -/
def lookupT2N (l : List (String × Nat)) (k : String) : Option Nat :=
  (l.find? (fun p => p.1 = k)).map Prod.snd

/-- `terminalToNode.set` (JavaScript `Map.set`: replace in place or append). -/
def t2nSet (m : List (String × Nat)) (k : String) (v : Nat) : List (String × Nat) :=
  if (m.find? (fun p => p.1 = k)).isSome then
    m.map (fun p => if p.1 = k then (k, v) else p)
  else m ++ [(k, v)]

/-- The initialisation step for one terminal key: assign a fresh node id and
singleton group when the key is not yet mapped. -/
def addKey (s : NodeState) (k : String) : NodeState :=
  match lookupT2N s.t2n k with
  | some _ => s
  | none =>
      { t2n := s.t2n ++ [(k, s.counter)],
        groups := s.groups ++ [(s.counter, [k])],
        counter := s.counter + 1 }

/-- The first loop of `buildCircuitNodes`: every terminal key of every
connection starts as its own group. -/
def initState (conns : List Connection) : NodeState :=
  conns.foldl (fun s c => addKey (addKey s c.fromKey) c.toKey) ⟨[], [], 0⟩

/-- The merge step for one connection: relabel every terminal of the `to`
group onto the `from` group's id, append those terminals to the `from`
group, and delete the `to` group. -/
def mergeConn (s : NodeState) (c : Connection) : NodeState :=
  match lookupT2N s.t2n c.fromKey, lookupT2N s.t2n c.toKey with
  | some fid, some tid =>
      if fid = tid then s
      else
        let toGroup := ((s.groups.find? (fun g => g.1 = tid)).map Prod.snd).getD []
        let t2nNew := toGroup.foldl (fun m k => t2nSet m k fid) s.t2n
        let groupsNew := (s.groups.map (fun g =>
          if g.1 = fid then (g.1, toGroup.foldl setInsert g.2) else g)).filter
          (fun g => g.1 ≠ tid)
        { t2n := t2nNew, groups := groupsNew, counter := s.counter }
  | _, _ => s

/-- The grouping state after both loops of `buildCircuitNodes`. -/
def mergedState (conns : List Connection) : NodeState :=
  conns.foldl mergeConn (initState conns)

/-- The distinct member component ids of a group, in first-seen order. -/
def groupComponents (ts : List String) : List String :=
  setOfList (ts.map keyComponent)

/-- One final `SimulationNode` built from a group. -/
def rawNode (g : Nat × List String) : SimulationNode :=
  { id := "node_" ++ toString g.1, voltage := 0,
    components := groupComponents g.2, terminals := g.2 }

/-- The node list before ground designation, in map-iteration order. -/
def rawNodes (conns : List Connection) : List SimulationNode :=
  (mergedState conns).groups.map rawNode

/-- `buildCircuitNodes`: group, then designate as ground the node with the
most member components (first encountered wins ties), rename it to
`ground` with voltage 0 (a JavaScript `Map` delete-then-set moves it to the
end of iteration order). -/
def buildCircuitNodes (conns : List Connection) : List SimulationNode :=
  if conns.isEmpty then []
  else
    match (mergedState conns).groups with
    | [] => []
    | g0 :: gs =>
        let ground := (g0 :: gs).foldl (fun g n =>
          if (groupComponents n.2).length > (groupComponents g.2).length then n else g) g0
        (((g0 :: gs).filter (fun g => g.1 ≠ ground.1)).map rawNode) ++
          [{ rawNode ground with id := "ground", voltage := 0 }]

/-- `findNodeForComponentTerminal`. -/
def findNodeForComponentTerminal (componentId terminalId : String)
    (nodes : List SimulationNode) : Option String :=
  (nodes.find? (fun n => termKey componentId terminalId ∈ n.terminals)).map
    SimulationNode.id

/-- JavaScript `Map.set` on the voltage map. -/
def vmapSet (m : List (String × ℚ)) (k : String) (v : ℚ) : List (String × ℚ) :=
  if (m.find? (fun p => p.1 = k)).isSome then
    m.map (fun p => if p.1 = k then (k, v) else p)
  else m ++ [(k, v)]

/-- `solveNodalAnalysis` (its output is computed but never consumed by the
rest of `simulate`, exactly as in the source). -/
def solveNodalAnalysis (cs : List Component) (_conns : List Connection)
    (nodes : List SimulationNode) : List (String × ℚ) :=
  let base := vmapSet [] "ground" 0
  let batteries := batteriesOf cs
  if batteries.isEmpty then
    nodes.foldl (fun m n => vmapSet m n.id 0) base
  else
    let afterBatteries := batteries.foldl (fun m battery =>
      match findNodeForComponentTerminal battery.id "positive" nodes,
            findNodeForComponentTerminal battery.id "negative" nodes with
      | some positiveNode, some negativeNode =>
          if negativeNode = "ground" then vmapSet m positiveNode battery.getVoltage
          else if positiveNode = "ground" then vmapSet m negativeNode (-battery.getVoltage)
          else vmapSet (vmapSet m positiveNode battery.getVoltage) negativeNode 0
      | _, _ => m) base
    nodes.foldl (fun m n =>
      if (m.find? (fun p => p.1 = n.id)).isSome then m else vmapSet m n.id 0)
      afterBatteries

/-- The full simulation result. -/
structure SimulationResult where
  nodes : List SimulationNode
  componentStates : List ComponentState
  isValid : Bool
  errors : List String
  warnings : List String
deriving DecidableEq, Repr

/-- `simulate`.  Returns the result together with the component list as it
stands after the call (step 5 of the source writes LED activation and
brightness back into the caller's components). -/
def simulate (cs : List Component) (conns : List Connection) :
    SimulationResult × List Component :=
  let cv := validateConnections cs conns
  if cv.isValid = false then
    ({ nodes := [], componentStates := [], isValid := false,
       errors := cv.errors, warnings := cv.warnings }, cs)
  else
    let nodes := buildCircuitNodes conns
    let v := simValidateCircuit cs conns
    let warnings := cv.warnings ++ v.warnings
    if v.isValid = false then
      ({ nodes := [], componentStates := [], isValid := false,
         errors := v.errors, warnings := warnings }, cs)
    else
      let _voltages := solveNodalAnalysis cs conns nodes
      let states := calculateComponentStates cs conns
      let cs2 := updateComponentProperties cs states
      ({ nodes := nodes, componentStates := states, isValid := true,
         errors := [], warnings := warnings }, cs2)

end CircuitSimulator

/-! ## Circuit validator (`CircuitValidator.ts`)

Fault records carry every field of the source's `CircuitError`.  The
source's `generateErrorId` returns `error_${++counter}_${Date.now()}`; the
embedding models the per-instance counter exactly (threaded through
`validateCircuit`) and omits the wall-clock suffix, which would only add a
further source of cross-call variation.  Apostrophes in the source's prose
literals are dropped; no claim depends on message text. -/

/-- Fault severity. -/
inductive Severity where
  | error
  | warning
  | info
deriving DecidableEq, Repr

/-- Machine-readable fault kinds (`ErrorType`). -/
inductive ErrorType where
  | short_circuit
  | open_circuit
  | no_power_source
  | disconnected_component
  | invalid_connection
  | component_overload
  | reverse_polarity
  | missing_current_limiting
  | floating_node
  | duplicate_connection
deriving DecidableEq, Repr

/-- Visual highlight info attached to a fault. -/
structure HighlightInfo where
  htype : String
  targets : List String
  color : String
  style : String
deriving DecidableEq, Repr

/-- A validator fault record. -/
structure CircuitError where
  id : String
  type : ErrorType
  severity : Severity
  message : String
  educationalExplanation : String
  affectedComponents : List String
  affectedConnections : List String
  suggestedFix : Option String := none
  visualHighlight : Option HighlightInfo := none
deriving DecidableEq, Repr

/-- An entry of a short-circuit search path: component id plus the
connection used to reach it (absent for the starting battery). -/
structure PathEntry where
  componentId : String
  connectionId : Option String := none
deriving DecidableEq, Repr

namespace CircuitValidator

open CircuitSimulator (batteriesOf resistorsOf ledsOf connectionsOf otherEndpoint)

/-- The terminal-id part of a `componentId:terminalId` key (the second
colon-separated segment, exactly like the source's array destructuring of
`split(':')`). -/
def keyTerminal (k : String) : String := ((k.splitOn ":").drop 1).headD ""

/-- The adjacency list of `buildConnectionGraph` at one vertex: for each
connection, the `from` endpoint gains an edge to the `to` endpoint and vice
versa, in connection order. -/
def adjacentNodes (conns : List Connection) (nodeKey : String) :
    List (String × String) :=
  conns.flatMap (fun c =>
    (if c.fromKey = nodeKey then [(c.toKey, c.id)] else []) ++
    (if c.toKey = nodeKey then [(c.fromKey, c.id)] else []))

/-- The DFS of `findDirectPaths`.  The `fuel` argument makes the recursion
structural; since the source only recurses while `newPath.length < 8` and
each level extends the path by one entry, a call started with fuel 8 and a
one-entry path never exhausts its fuel, so the embedding computes exactly
the source's path list. -/
def directDfs (cs : List Component) (conns : List Connection)
    (startComponent endTerminal : String) :
    Nat → String → String → List PathEntry → List String → List (List PathEntry)
  | 0, _, _, _, _ => []
  | fuel + 1, currentComponent, currentTerminal, path, visitedConnections =>
    (adjacentNodes conns (termKey currentComponent currentTerminal)).foldl
      (fun acc tc =>
        if tc.2 ∈ visitedConnections then acc
        else
          let targetComponent := keyComponent tc.1
          let targetTerminal := keyTerminal tc.1
          let newPath := path ++ [⟨targetComponent, some tc.2⟩]
          let newVisited := visitedConnections ++ [tc.2]
          if targetComponent = startComponent ∧ targetTerminal = endTerminal then
            acc ++ [newPath]
          else if newPath.length < 8 then
            acc ++
              (match findComponent cs targetComponent with
                | some targetComp =>
                    targetComp.getTerminals.flatMap (fun t =>
                      if t ≠ targetTerminal then
                        directDfs cs conns startComponent endTerminal fuel
                          targetComponent t newPath newVisited
                      else [])
                | none => [])
          else acc)
      []

/-- `findDirectPaths`: all connection-disjoint paths (at most 8 entries)
from `startTerminal` of `startComponent` back to `endTerminal` of the same
component.  The source's final `visited` parameter is unused there too. -/
def findDirectPaths (startComponent startTerminal endTerminal : String)
    (cs : List Component) (conns : List Connection) (_visited : List String) :
    List (List PathEntry) :=
  directDfs cs conns startComponent endTerminal 8 startComponent startTerminal
    [⟨startComponent, none⟩] []

/-- The DFS of `findCompletePaths`: additionally refuses to revisit a
component already on the path. -/
def completeDfs (cs : List Component) (conns : List Connection)
    (batteryId endTerminal : String) :
    Nat → String → String → List String → List String → List (List String)
  | 0, _, _, _, _ => []
  | fuel + 1, currentComponent, currentTerminal, path, visitedConnections =>
    (adjacentNodes conns (termKey currentComponent currentTerminal)).foldl
      (fun acc tc =>
        if tc.2 ∈ visitedConnections then acc
        else
          let targetComponent := keyComponent tc.1
          let targetTerminal := keyTerminal tc.1
          let newPath := path ++ [targetComponent]
          let newVisited := visitedConnections ++ [tc.2]
          if targetComponent = batteryId ∧ targetTerminal = endTerminal then
            acc ++ [newPath]
          else if newPath.length < 8 ∧ targetComponent ∉ path then
            acc ++
              (match findComponent cs targetComponent with
                | some targetComp =>
                    targetComp.getTerminals.flatMap (fun t =>
                      if t ≠ targetTerminal then
                        completeDfs cs conns batteryId endTerminal fuel
                          targetComponent t newPath newVisited
                      else [])
                | none => [])
          else acc)
      []

/-- `findCompletePaths`. -/
def findCompletePaths (batteryId startTerminal endTerminal : String)
    (cs : List Component) (conns : List Connection) : List (List String) :=
  completeDfs cs conns batteryId endTerminal 8 batteryId startTerminal
    [batteryId] []

/-- `calculatePathResistance`: resistors contribute their resistance, wires
a fixed 0.01 Ω, all other kinds (and dangling ids) contribute nothing. -/
def calculatePathResistance (path : List PathEntry) (cs : List Component) : ℚ :=
  path.foldl (fun acc pn =>
    match findComponent cs pn.componentId with
    | some comp =>
        if comp.kind = .resistor then acc + comp.getResistance
        else if comp.kind = .wire then acc + 1 / 100
        else acc
    | none => acc) 0

/-- The fault record emitted for one low-resistance battery-terminal path:
it references the path's components and the connections it traversed. -/
def shortCircuitError (battery : Component) (path : List PathEntry) : CircuitError :=
  { id := "",
    type := .short_circuit,
    severity := .error,
    message := "Short circuit detected: Battery " ++ battery.id ++
      " terminals are directly connected with very low resistance",
    educationalExplanation :=
      "A short circuit occurs when electricity can flow directly from the positive to negative terminal of a battery without going through any significant resistance. This causes extremely high current flow that can damage components and drain the battery quickly. In real circuits, this could cause overheating, fire, or explosion.",
    affectedComponents := path.map PathEntry.componentId,
    affectedConnections := (path.drop 1).filterMap PathEntry.connectionId,
    suggestedFix := some "Add a resistor or other component between the battery terminals to limit current flow.",
    visualHighlight := some ⟨"component", path.map PathEntry.componentId, "#ff0000", "pulsing"⟩ }

/-- `checkForShortCircuits`: one error per enumerated battery-terminal path
whose summed resistance is below 1 Ω. -/
def checkForShortCircuits (cs : List Component) (conns : List Connection) :
    List CircuitError :=
  (batteriesOf cs).flatMap (fun battery =>
    (findDirectPaths battery.id "positive" "negative" cs conns []).flatMap (fun path =>
      if calculatePathResistance path cs < 1 then [shortCircuitError battery path]
      else []))

/-- The fault record emitted for a battery lacking any complete
terminal-to-terminal path. -/
def openCircuitError (battery : Component) : CircuitError :=
  { id := "",
    type := .open_circuit,
    severity := .error,
    message := "Open circuit: No complete path from positive to negative terminal of battery " ++ battery.id,
    educationalExplanation :=
      "An open circuit means there is no complete path for electricity to flow from the positive terminal of the battery, through the circuit components, and back to the negative terminal. Without a complete circuit, no current can flow and the circuit will not work. This is like having a broken wire in the circuit.",
    affectedComponents := [battery.id],
    affectedConnections := [],
    suggestedFix := some "Connect components to create a complete path from the battery positive terminal to its negative terminal.",
    visualHighlight := some ⟨"component", [battery.id], "#ff8800", "dashed"⟩ }

/-- `checkForOpenCircuits`: one error per battery with no complete
terminal-to-terminal path. -/
def checkForOpenCircuits (cs : List Component) (conns : List Connection) :
    List CircuitError :=
  (batteriesOf cs).flatMap (fun battery =>
    if (findCompletePaths battery.id "positive" "negative" cs conns).isEmpty then
      [openCircuitError battery]
    else [])

/-- `checkForPowerSources`. -/
def checkForPowerSources (cs : List Component) : List CircuitError :=
  if (batteriesOf cs).isEmpty = true ∧ cs.isEmpty = false then
    [{ id := "",
       type := .no_power_source,
       severity := .error,
       message := "No power source found in circuit",
       educationalExplanation :=
         "Every electrical circuit needs a power source (like a battery) to provide the energy that pushes electrons through the circuit. Without a power source, there is no voltage difference to drive current flow, so the circuit cannot function.",
       affectedComponents := [],
       affectedConnections := [],
       suggestedFix := some "Add a battery or other power source to your circuit.",
       visualHighlight := some ⟨"area", [], "#ff0000", "dashed"⟩ }]
  else []

/-- `checkForDisconnectedComponents`. -/
def checkForDisconnectedComponents (cs : List Component) (conns : List Connection) :
    List CircuitError :=
  let connectedIds := conns.flatMap (fun c => [c.fromComponent, c.toComponent])
  cs.flatMap (fun component =>
    if component.id ∉ connectedIds ∧ component.kind ≠ .wire then
      [{ id := "",
         type := .disconnected_component,
         severity := .warning,
         message := "Component " ++ component.id ++ " is not connected to the circuit",
         educationalExplanation :=
           "This component is not connected to any other components in the circuit. Disconnected components cannot affect the circuit behavior because electricity cannot flow through them. In a real circuit, this would be like having a component sitting on the table next to your circuit but not wired in.",
         affectedComponents := [component.id],
         affectedConnections := [],
         suggestedFix := some "Connect this component to other components using wires.",
         visualHighlight := some ⟨"component", [component.id], "#ffaa00", "dashed"⟩ }]
    else [])

/-- `checkForInvalidConnections`. -/
def checkForInvalidConnections (cs : List Component) (conns : List Connection) :
    List CircuitError :=
  conns.flatMap (fun connection =>
    match CircuitSimulator.componentMapGet cs connection.fromComponent,
          CircuitSimulator.componentMapGet cs connection.toComponent with
    | some fromComp, some toComp =>
        if (fromComp.terminalList.find? (fun t => t.1 = connection.fromTerminal)).isNone ∨
           (toComp.terminalList.find? (fun t => t.1 = connection.toTerminal)).isNone then
          [{ id := "",
             type := .invalid_connection,
             severity := .error,
             message := "Invalid connection " ++ connection.id ++ ": Terminal not found",
             educationalExplanation :=
               "This connection references a terminal that does not exist on the component. Each component has specific connection points (terminals) where wires can be attached.",
             affectedComponents := [connection.fromComponent, connection.toComponent],
             affectedConnections := [connection.id],
             suggestedFix := some "Reconnect the components using valid terminals." }]
        else []
    | _, _ =>
        [{ id := "",
           type := .invalid_connection,
           severity := .error,
           message := "Invalid connection " ++ connection.id ++ ": Component not found",
           educationalExplanation :=
             "This connection references a component that does not exist in the circuit. This is usually a software error that occurs when components are deleted but their connections remain.",
           affectedComponents :=
             [connection.fromComponent, connection.toComponent].filter (fun s => s ≠ ""),
           affectedConnections := [connection.id],
           suggestedFix := some "Remove this invalid connection or restore the missing component." }])

/-- `calculateTotalCircuitResistance`: simplified series sum. -/
def calculateTotalCircuitResistance (cs : List Component) (_conns : List Connection) : ℚ :=
  ((resistorsOf cs).map Component.getResistance).sum

/-- `Number.prototype.toFixed(1)` for the nonnegative rationals that occur
in overload messages (round to nearest tenth, ties away from zero). -/
def toFixed1 (q : ℚ) : String :=
  let n : ℤ := round (q * 10)
  toString (n / 10) ++ "." ++ toString (n % 10)

/-- `checkForComponentOverloads`. -/
def checkForComponentOverloads (cs : List Component) (conns : List Connection) :
    List CircuitError :=
  (batteriesOf cs).flatMap (fun battery =>
    let totalV := battery.getVoltage
    let totalR := calculateTotalCircuitResistance cs conns
    if totalR > 0 then
      let current := totalV / totalR
      (ledsOf cs).flatMap (fun led =>
        if current > 1 / 50 then
          [{ id := "",
             type := .component_overload,
             severity := .warning,
             message := "LED " ++ led.id ++ " may be receiving excessive current (" ++
               toFixed1 (current * 1000) ++ "mA)",
             educationalExplanation :=
               "LEDs have a maximum current rating, typically around 20mA for standard LEDs. Exceeding this current can damage the LED by causing it to overheat. In real circuits, this could burn out the LED permanently.",
             affectedComponents := [led.id],
             affectedConnections := [],
             suggestedFix := some "Add a current-limiting resistor in series with the LED to reduce the current.",
             visualHighlight := some ⟨"component", [led.id], "#ff8800", "pulsing"⟩ }]
        else [])
    else [])

/-- `checkForReversePolarity`. -/
def checkForReversePolarity (cs : List Component) (conns : List Connection) :
    List CircuitError :=
  (ledsOf cs).flatMap (fun led =>
    let anodeConnections := conns.filter (fun c =>
      (c.fromComponent = led.id ∧ c.fromTerminal = "anode") ∨
      (c.toComponent = led.id ∧ c.toTerminal = "anode"))
    anodeConnections.flatMap (fun anodeConn =>
      let otherComponent :=
        if anodeConn.fromComponent = led.id then anodeConn.toComponent
        else anodeConn.fromComponent
      let otherTerminal :=
        if anodeConn.fromComponent = led.id then anodeConn.toTerminal
        else anodeConn.fromTerminal
      match findComponent cs otherComponent with
      | some comp =>
          if comp.kind = .battery ∧ otherTerminal = "negative" then
            [{ id := "",
               type := .reverse_polarity,
               severity := .warning,
               message := "LED " ++ led.id ++ " may be connected with reverse polarity",
               educationalExplanation :=
                 "LEDs are polarized components, meaning they only allow current to flow in one direction. The anode (positive terminal) should connect toward the positive side of the circuit, and the cathode (negative terminal) should connect toward the negative side. When connected backwards, the LED will not light up.",
               affectedComponents := [led.id, otherComponent],
               affectedConnections := [anodeConn.id],
               suggestedFix := some "Check the LED polarity and reconnect it with the anode toward positive and cathode toward negative.",
               visualHighlight := some ⟨"component", [led.id], "#ff8800", "dashed"⟩ }]
          else []
      | none => []))

/-- `isComponentInSeriesWith`: a direct (one-hop) connection to any of the
target components. -/
def isComponentInSeriesWith (componentId : String) (targetComponentIds : List String)
    (conns : List Connection) : Bool :=
  (connectionsOf componentId conns).any (fun c =>
    decide (otherEndpoint componentId c ∈ targetComponentIds))

/-- `checkForMissingCurrentLimiting`. -/
def checkForMissingCurrentLimiting (cs : List Component) (conns : List Connection) :
    List CircuitError :=
  (ledsOf cs).flatMap (fun led =>
    if isComponentInSeriesWith led.id ((resistorsOf cs).map Component.id) conns = false then
      [{ id := "",
         type := .missing_current_limiting,
         severity := .warning,
         message := "LED " ++ led.id ++ " does not have a current-limiting resistor",
         educationalExplanation :=
           "LEDs should typically be used with a current-limiting resistor to prevent damage from excessive current. Without a resistor, the LED may draw too much current and burn out. The resistor limits the current to a safe level while still allowing the LED to light up properly.",
         affectedComponents := [led.id],
         affectedConnections := [],
         suggestedFix := some "Add a resistor in series with the LED to limit the current to a safe level (typically 220-1000 ohms).",
         visualHighlight := some ⟨"component", [led.id], "#ffaa00", "solid"⟩ }]
    else [])

/-- The terminal keys of all connections in first-insertion order (the
iteration order of the source's count map). -/
def terminalKeysInOrder (conns : List Connection) : List String :=
  setOfList (conns.flatMap (fun c => [c.fromKey, c.toKey]))

/-- How many connection endpoints use a terminal key. -/
def keyCount (conns : List Connection) (k : String) : Nat :=
  (conns.flatMap (fun c => [c.fromKey, c.toKey])).count k

/-- `checkForFloatingNodes`. -/
def checkForFloatingNodes (cs : List Component) (conns : List Connection) :
    List CircuitError :=
  (terminalKeysInOrder conns).flatMap (fun nodeKey =>
    if keyCount conns nodeKey = 1 then
      let componentId := keyComponent nodeKey
      let terminalId := keyTerminal nodeKey
      match findComponent cs componentId with
      | some component =>
          if component.kind ≠ .wire then
            [{ id := "",
               type := .floating_node,
               severity := .info,
               message := "Component " ++ componentId ++ " has a floating terminal (" ++
                 terminalId ++ ")",
               educationalExplanation :=
                 "A floating node is a connection point that is only connected to one other point. This usually means the component has an unused terminal, which is often normal but worth noting. In some cases, it might indicate an incomplete connection.",
               affectedComponents := [componentId],
               affectedConnections := [],
               suggestedFix := some "This may be normal, but verify that all necessary connections are made." }]
          else []
      | none => []
    else [])

/-- The forward endpoint-pair key of `checkForDuplicateConnections`. -/
def dupKey1 (c : Connection) : String := c.fromKey ++ "-" ++ c.toKey

/-- The reversed endpoint-pair key. -/
def dupKey2 (c : Connection) : String := c.toKey ++ "-" ++ c.fromKey

/-- The keys of the duplicate-connection grouping map in insertion order. -/
def dupKeys (conns : List Connection) : List String :=
  setOfList (conns.flatMap (fun c => [dupKey1 c, dupKey2 c]))

/-- The connection list stored under one grouping key (a connection whose
two keys coincide is pushed twice, as in the source). -/
def dupList (conns : List Connection) (k : String) : List Connection :=
  conns.flatMap (fun c =>
    (if dupKey1 c = k then [c] else []) ++ (if dupKey2 c = k then [c] else []))

/-- `checkForDuplicateConnections`. -/
def checkForDuplicateConnections (conns : List Connection) : List CircuitError :=
  (dupKeys conns).flatMap (fun k =>
    let connectionList := dupList conns k
    if connectionList.length > 1 then
      [{ id := "",
         type := .duplicate_connection,
         severity := .warning,
         message := "Duplicate connections found between the same terminals",
         educationalExplanation :=
           "Multiple wires are connected between the same two terminals. This is usually unnecessary and can make the circuit confusing to understand. In most cases, one connection is sufficient.",
         affectedComponents := [],
         affectedConnections := connectionList.map Connection.id,
         suggestedFix := some "Remove the duplicate connections, keeping only one wire between these terminals." }]
    else [])

/-- All ten checks, in the order `validateCircuit` runs them; each emits its
faults in its own emission order, so this concatenation lists all faults in
the order `generateErrorId` is called. -/
def checks (cs : List Component) (conns : List Connection) : List CircuitError :=
  checkForShortCircuits cs conns ++
  checkForOpenCircuits cs conns ++
  checkForPowerSources cs ++
  checkForDisconnectedComponents cs conns ++
  checkForInvalidConnections cs conns ++
  checkForComponentOverloads cs conns ++
  checkForReversePolarity cs conns ++
  checkForMissingCurrentLimiting cs conns ++
  checkForFloatingNodes cs conns ++
  checkForDuplicateConnections conns

/-- The deterministic part of `generateErrorId` for counter value `n`. -/
def errId (n : Nat) : String := "error_" ++ toString n

/-- Number a fault list with consecutive counter values starting above `n`,
exactly as successive `generateErrorId` calls would (the head gets
`n + 1`, the next fault `n + 2`, and so on). -/
def assignIds : Nat → List CircuitError → List CircuitError
  | _, [] => []
  | n, e :: rest => { e with id := errId (n + 1) } :: assignIds (n + 1) rest

/-- The validator's public result. -/
structure ValidationResult where
  isValid : Bool
  errors : List CircuitError
  warnings : List CircuitError
  info : List CircuitError
deriving DecidableEq, Repr

/-- The validator's public `validateCircuit`, with the hidden per-instance
`errorCounter` made explicit: it receives the counter value and returns the
advanced counter alongside the result. -/
def validateCircuit (cs : List Component) (conns : List Connection) (n : Nat) :
    ValidationResult × Nat :=
  let all := assignIds n (checks cs conns)
  let errors := all.filter (fun e => e.severity = .error)
  let warnings := all.filter (fun e => e.severity = .warning)
  let info := all.filter (fun e => e.severity = .info)
  ({ isValid := errors.isEmpty, errors := errors, warnings := warnings, info := info },
    n + (checks cs conns).length)

end CircuitValidator

/-! ## Checked arithmetic (for the non-finiteness claim)

`Option`-valued counterparts of the simulator computations in which every
division the source performs on circuit data goes through `dchk`, which
fails instead of producing a non-finite value when its denominator is
zero. -/

namespace Checked

/-- Checked division. -/
def dchk (a b : ℚ) : Option ℚ := if b = 0 then none else some (a / b)

/-- Checked counterpart of `equivalentResistance` (one `dchk` per
`1 / r.getResistance()` and one for `1 / reciprocalSum`). -/
def equivalentResistance (resistors : List Component) (conns : List Connection) :
    Option ℚ :=
  if CircuitSimulator.areResistorsInParallel resistors conns = true ∧
      resistors.length > 1 then do
    let recips ← resistors.mapM (fun r => dchk 1 r.getResistance)
    dchk 1 recips.sum
  else some ((resistors.map Component.getResistance).sum)

/-- Checked counterpart of `calculateCircuitCurrent`. -/
def calculateCircuitCurrent (cs : List Component) (conns : List Connection) :
    Option ℚ :=
  let batteries := CircuitSimulator.batteriesOf cs
  let leds := CircuitSimulator.ledsOf cs
  if batteries.isEmpty then some 0
  else
    let totalV := CircuitSimulator.totalVoltage cs
    if leds.any (fun led => decide (totalV < led.getForwardVoltage)) then some 0
    else do
      let eqR ← equivalentResistance (CircuitSimulator.resistorsOf cs) conns
      let totalR := eqR + 100 * (leds.length : ℚ)
      if totalR ≤ 0 then some 0
      else
        let effectiveVoltage := totalV - (leds.map Component.getForwardVoltage).sum
        (dchk effectiveVoltage totalR).map (fun x => max 0 x)

/-- Checked counterpart of `componentState`. -/
def componentState (cs : List Component) (conns : List Connection) (c : Component) :
    Option ComponentState :=
  match c.kind with
  | .resistor =>
      if CircuitSimulator.areResistorsInParallel (CircuitSimulator.resistorsOf cs) conns = true ∧
          (CircuitSimulator.resistorsOf cs).length > 1 then do
        let totalV := CircuitSimulator.totalVoltage cs
        let current ← dchk totalV c.getResistance
        some { componentId := c.id, voltage := totalV, current := current,
               power := current * totalV, isActive := decide (current > tolerance) }
      else do
        let current ← calculateCircuitCurrent cs conns
        let voltage := current * c.getResistance
        some { componentId := c.id, voltage := voltage, current := current,
               power := current * voltage, isActive := decide (current > tolerance) }
  | .battery => do
      let current ← calculateCircuitCurrent cs conns
      some { componentId := c.id, voltage := c.getVoltage, current := current,
             power := current * c.getVoltage, isActive := true }
  | .led => do
      let circuitCurrent ← calculateCircuitCurrent cs conns
      let totalV := CircuitSimulator.totalVoltage cs
      let otherResistance := ((CircuitSimulator.resistorsOf cs).map Component.getResistance).sum
      let voltageAcrossLED := totalV - circuitCurrent * otherResistance
      if voltageAcrossLED ≥ c.getForwardVoltage ∧ circuitCurrent > tolerance then do
        let ratio ← dchk circuitCurrent (1 / 50)
        some { componentId := c.id, voltage := voltageAcrossLED, current := circuitCurrent,
               power := circuitCurrent * voltageAcrossLED, isActive := true,
               brightness := some (min ratio 1) }
      else
        some { componentId := c.id, voltage := 0, current := 0, power := 0,
               isActive := false, brightness := some 0 }
  | .wire =>
      some { componentId := c.id, voltage := 0, current := 0, power := 0, isActive := false }

/-- Checked counterpart of `calculateComponentStates`. -/
def calculateComponentStates (cs : List Component) (conns : List Connection) :
    Option (List ComponentState) :=
  cs.foldlM (fun m c => (componentState cs conns c).map
    (fun s => CircuitSimulator.stateMapSet m s)) []

end Checked

/-! ## Id stripping (for the idempotence claim) -/

/-- Blank a fault's generated id, leaving every other field intact. -/
def stripId (e : CircuitError) : CircuitError := { e with id := "" }

/-- A validation result with all generated fault ids blanked. -/
def eraseIds (r : CircuitValidator.ValidationResult) : CircuitValidator.ValidationResult :=
  { r with errors := r.errors.map stripId, warnings := r.warnings.map stripId,
           info := r.info.map stripId }

/-! ## The connection relation (for the node-grouping claim) -/

/-- The symmetric edge relation the connection list induces on terminal
keys: `a` and `b` are the two endpoint keys of some connection. -/
def connRel (conns : List Connection) (a b : String) : Prop :=
  ∃ c ∈ conns, (a = c.fromKey ∧ b = c.toKey) ∨ (a = c.toKey ∧ b = c.fromKey)

/-- All terminal keys mentioned by the connections (with repetitions). -/
def allTerminalKeys (conns : List Connection) : List String :=
  conns.flatMap (fun c => [c.fromKey, c.toKey])

/-- Well-formedness of a grouping state relative to the key list `K` and the
equivalence `R` its `terminalToNode` map currently realises: the map is
defined exactly on `K`, the groups are keyed without repetition, group
membership and map lookup agree in both directions, and two keys share a
lookup exactly when `R` relates them. -/
structure GoodState (K : List String) (R : String → String → Prop)
    (s : CircuitSimulator.NodeState) : Prop where
  dom : ∀ k, (CircuitSimulator.lookupT2N s.t2n k).isSome ↔ k ∈ K
  ids_nodup : (s.groups.map Prod.fst).Nodup
  sound : ∀ g ∈ s.groups, ∀ k ∈ g.2, CircuitSimulator.lookupT2N s.t2n k = some g.1
  complete : ∀ k g, CircuitSimulator.lookupT2N s.t2n k = some g →
    ∃ ts, (g, ts) ∈ s.groups ∧ k ∈ ts
  eqv : ∀ a ∈ K, ∀ b ∈ K,
    (CircuitSimulator.lookupT2N s.t2n a = CircuitSimulator.lookupT2N s.t2n b ↔ R a b)

/-- The stronger invariant maintained by the initialisation loop: lookups
are additionally injective, every group is nonempty, and every assigned
node id is below the counter (freshness). -/
structure InitGood (K : List String) (s : CircuitSimulator.NodeState) : Prop where
  dom : ∀ k, (CircuitSimulator.lookupT2N s.t2n k).isSome ↔ k ∈ K
  ids_nodup : (s.groups.map Prod.fst).Nodup
  sound : ∀ g ∈ s.groups, ∀ k ∈ g.2, CircuitSimulator.lookupT2N s.t2n k = some g.1
  complete : ∀ k g, CircuitSimulator.lookupT2N s.t2n k = some g →
    ∃ ts, (g, ts) ∈ s.groups ∧ k ∈ ts
  nonempty : ∀ g ∈ s.groups, g.2 ≠ []
  inj : ∀ a b g, CircuitSimulator.lookupT2N s.t2n a = some g →
    CircuitSimulator.lookupT2N s.t2n b = some g → a = b
  bound : ∀ k g, CircuitSimulator.lookupT2N s.t2n k = some g → g < s.counter

/-! ## Concrete sample circuits used by witnesses and counterexamples -/

/-- A 9 V battery. -/
def sampleBattery : Component := { id := "battery1", kind := .battery, voltage := some 9 }

/-- A 1 V battery (below a standard LED forward voltage). -/
def sampleLowBattery : Component := { id := "battery1", kind := .battery, voltage := some 1 }

/-- A 1000 Ω resistor. -/
def sampleResistor : Component := { id := "resistor1", kind := .resistor, resistance := some 1000 }

/-- A resistor whose stored resistance is 0 (JavaScript-falsy). -/
def sampleZeroResistor : Component := { id := "resistor1", kind := .resistor, resistance := some 0 }

/-- An LED with 2 V forward voltage. -/
def sampleLED : Component := { id := "led1", kind := .led, forwardVoltage := some 2 }

/-- A bare wire (two path points). -/
def sampleWire : Component := { id := "wire1", kind := .wire }

/-- A 100 Ω resistor. -/
def sampleResistorA : Component := { id := "resistorA", kind := .resistor, resistance := some 100 }

/-- A 200 Ω resistor. -/
def sampleResistorB : Component := { id := "resistorB", kind := .resistor, resistance := some 200 }

/-- Battery and resistor in a simple series loop. -/
def seriesConns : List Connection :=
  [⟨"c1", "battery1", "positive", "resistor1", "terminal1"⟩,
   ⟨"c2", "resistor1", "terminal2", "battery1", "negative"⟩]

/-- Battery, LED and resistor in a series loop. -/
def ledConns : List Connection :=
  [⟨"c1", "battery1", "positive", "led1", "anode"⟩,
   ⟨"c2", "led1", "cathode", "resistor1", "terminal1"⟩,
   ⟨"c3", "resistor1", "terminal2", "battery1", "negative"⟩]

/-- Battery terminals bridged by a bare wire. -/
def wireConns : List Connection :=
  [⟨"c1", "battery1", "positive", "wire1", "start"⟩,
   ⟨"c2", "wire1", "end", "battery1", "negative"⟩]

/-- Two resistors wired in parallel across the battery. -/
def parallelConns : List Connection :=
  [⟨"c1", "battery1", "positive", "resistorA", "terminal1"⟩,
   ⟨"c2", "resistorA", "terminal2", "battery1", "negative"⟩,
   ⟨"c3", "battery1", "positive", "resistorB", "terminal1"⟩,
   ⟨"c4", "resistorB", "terminal2", "battery1", "negative"⟩]

/-! ## Well-formedness and basic accessor facts -/

/-- A stored resistance, if present, is positive (the component-level
`validateSpecific` accepts exactly such resistors). -/
def resistanceOK (c : Component) : Bool :=
  match c.resistance with
  | none => true
  | some x => decide (0 < x)

/-- A stored source voltage, if present, is positive. -/
def voltageOK (c : Component) : Bool :=
  match c.voltage with
  | none => true
  | some x => decide (0 < x)

/-- A stored forward voltage, if present, is positive. -/
def forwardVoltageOK (c : Component) : Bool :=
  match c.forwardVoltage with
  | none => true
  | some x => decide (0 < x)

/-- A component all of whose stored electrical properties pass their
component-level validation. -/
def wellFormed (c : Component) : Bool :=
  resistanceOK c && voltageOK c && forwardVoltageOK c

theorem getResistance_ne_zero (c : Component) : c.getResistance ≠ 0 := by
  unfold Component.getResistance
  match h : c.resistance with
  | none => norm_num
  | some r =>
      by_cases hr : r = 0 <;> simp [hr]

theorem getResistance_pos (c : Component) (h : resistanceOK c = true) :
    0 < c.getResistance := by
  unfold Component.getResistance
  unfold resistanceOK at h
  match hr : c.resistance with
  | none => norm_num
  | some r =>
      rw [hr] at h
      by_cases h0 : r = 0
      · simp [h0]
      · simpa [h0] using h

theorem getVoltage_pos (c : Component) (h : voltageOK c = true) :
    0 < c.getVoltage := by
  unfold Component.getVoltage
  unfold voltageOK at h
  match hv : c.voltage with
  | none => norm_num
  | some v =>
      rw [hv] at h
      by_cases h0 : v = 0
      · simp [h0]
      · simpa [h0] using h

theorem getForwardVoltage_pos (c : Component) (h : forwardVoltageOK c = true) :
    0 < c.getForwardVoltage := by
  unfold Component.getForwardVoltage
  unfold forwardVoltageOK at h
  match hv : c.forwardVoltage with
  | none => norm_num
  | some v =>
      rw [hv] at h
      by_cases h0 : v = 0
      · simp [h0]
      · simpa [h0] using h

/-! ## C10 -/

/-- **C10.** `Resistor.getResistance` returns the default 1000 whenever the
stored resistance property is missing or zero (any falsy number), and
`setResistance` silently ignores non-positive values; consequently a zero-ohm
resistor in series with a battery is treated as a 1000 Ω resistor both by the
validator's short-circuit path-resistance sum (its battery-to-battery path
sums to 1000 Ω, so no short-circuit error is emitted) and by the simulator's
current calculation (current is `V / 1000`). -/
theorem claim_C10 :
    (∀ c : Component, c.resistance = none ∨ c.resistance = some 0 →
      c.getResistance = 1000) ∧
    (∀ (c : Component) (r : ℚ), r ≤ 0 → c.setResistance r = c) ∧
    (∀ b r : Component, ∀ cid1 cid2 : String,
      b.kind = .battery → r.kind = .resistor → r.resistance = some 0 → b.id ≠ r.id →
      CircuitValidator.calculatePathResistance
        [⟨b.id, none⟩, ⟨r.id, some cid1⟩, ⟨b.id, some cid2⟩] [b, r] = 1000 ∧
      ∀ conns : List Connection,
        CircuitSimulator.calculateCircuitCurrent [b, r] conns =
          max 0 (b.getVoltage / 1000)) := by
  refine ⟨?_, ?_, ?_⟩
  · intro c hc
    rcases hc with h | h <;> simp [Component.getResistance, h]
  · intro c r hr
    simp [Component.setResistance, not_lt.mpr hr]
  · intro b r cid1 cid2 hb hr hr0 hne
    have hfindb : findComponent [b, r] b.id = some b := by
      simp [findComponent, List.find?]
    have hfindr : findComponent [b, r] r.id = some r := by
      simp [findComponent, List.find?, hne]
    constructor
    · simp [CircuitValidator.calculatePathResistance, hfindb, hfindr, hb, hr,
        Component.getResistance, hr0]
    · intro conns
      have hbat : CircuitSimulator.batteriesOf [b, r] = [b] := by
        simp [CircuitSimulator.batteriesOf, List.filter, hb, hr]
      have hres : CircuitSimulator.resistorsOf [b, r] = [r] := by
        simp [CircuitSimulator.resistorsOf, List.filter, hb, hr]
      have hled : CircuitSimulator.ledsOf [b, r] = [] := by
        simp [CircuitSimulator.ledsOf, List.filter, hb, hr]
      have hR : CircuitSimulator.circuitTotalResistance [b, r] conns = 1000 := by
        simp [CircuitSimulator.circuitTotalResistance, hres, hled,
          CircuitSimulator.equivalentResistance, CircuitSimulator.areResistorsInParallel,
          Component.getResistance, hr0]
      simp [CircuitSimulator.calculateCircuitCurrent, hbat, hres, hled, hR,
        CircuitSimulator.totalVoltage]

/-! ## Component-state map facts -/

theorem nodup_cons_ids {c : Component} {l : List Component}
    (h : ((c :: l).map Component.id).Nodup) :
    c.id ∉ l.map Component.id ∧ (l.map Component.id).Nodup := by
  simp only [List.map_cons, List.nodup_cons] at h
  exact h

theorem componentState_componentId (cs : List Component) (conns : List Connection)
    (c : Component) :
    (CircuitSimulator.componentState cs conns c).componentId = c.id := by
  unfold CircuitSimulator.componentState
  cases c.kind <;> dsimp only <;> (try split) <;> rfl

theorem foldl_stateMapSet_eq_append (cs : List Component) (conns : List Connection) :
    ∀ (l : List Component) (m : List ComponentState),
      (l.map Component.id).Nodup →
      (∀ s ∈ m, ∀ c ∈ l, s.componentId ≠ c.id) →
      l.foldl
        (fun m c => CircuitSimulator.stateMapSet m (CircuitSimulator.componentState cs conns c)) m =
        m ++ l.map (CircuitSimulator.componentState cs conns) := by
  intro l
  induction l with
  | nil => intro m _ _; simp
  | cons c rest ih =>
      intro m hnodup hdisj
      have hno : (m.any
          (fun t => t.componentId = (CircuitSimulator.componentState cs conns c).componentId)) = false := by
        rw [List.any_eq_false]
        intro s hs
        rw [componentState_componentId]
        simpa using hdisj s hs c (by simp)
      have hstep : CircuitSimulator.stateMapSet m (CircuitSimulator.componentState cs conns c) =
          m ++ [CircuitSimulator.componentState cs conns c] := by
        unfold CircuitSimulator.stateMapSet
        rw [hno]
        simp
      rw [List.foldl_cons, hstep]
      rw [ih (m ++ [CircuitSimulator.componentState cs conns c])
        (nodup_cons_ids hnodup).2 ?_]
      · simp
      · intro s hs d hd
        rcases List.mem_append.mp hs with h | h
        · exact hdisj s h d (by simp [hd])
        · simp only [List.mem_singleton] at h
          subst h
          rw [componentState_componentId]
          have hcid : c.id ∉ rest.map Component.id := (nodup_cons_ids hnodup).1
          intro hEq
          exact hcid (hEq ▸ List.mem_map_of_mem Component.id hd)

theorem calculateComponentStates_eq_map (cs : List Component) (conns : List Connection)
    (hnodup : (cs.map Component.id).Nodup) :
    CircuitSimulator.calculateComponentStates cs conns =
      cs.map (CircuitSimulator.componentState cs conns) := by
  unfold CircuitSimulator.calculateComponentStates
  simpa using foldl_stateMapSet_eq_append cs conns cs [] hnodup (by simp)

theorem find_map_of_nodup (f : Component → ComponentState)
    (hf : ∀ x, (f x).componentId = x.id) :
    ∀ (l : List Component), (l.map Component.id).Nodup → ∀ c ∈ l,
      (l.map f).find? (fun s => s.componentId = c.id) = some (f c) := by
  intro l
  induction l with
  | nil => intro _ c hc; cases hc
  | cons d rest ih =>
      intro hnodup c hc
      rcases List.mem_cons.mp hc with rfl | hmem
      · simp [List.find?, hf]
      · have hnd := nodup_cons_ids hnodup
        have hne : d.id ≠ c.id := by
          intro hEq
          exact hnd.1 (hEq ▸ List.mem_map_of_mem Component.id hmem)
        simp only [List.map_cons, List.find?, hf]
        rw [decide_eq_false hne]
        exact ih hnd.2 c hmem

theorem stateLookup_eq (cs : List Component) (conns : List Connection) (c : Component)
    (hnodup : (cs.map Component.id).Nodup) (hc : c ∈ cs) :
    CircuitSimulator.stateLookup (CircuitSimulator.calculateComponentStates cs conns) c.id =
      some (CircuitSimulator.componentState cs conns c) := by
  rw [calculateComponentStates_eq_map cs conns hnodup]
  unfold CircuitSimulator.stateLookup
  exact find_map_of_nodup (CircuitSimulator.componentState cs conns)
    (componentState_componentId cs conns) cs hnodup c hc

theorem wellFormed_parts {c : Component} (h : wellFormed c = true) :
    resistanceOK c = true ∧ voltageOK c = true ∧ forwardVoltageOK c = true := by
  unfold wellFormed at h
  simp only [Bool.and_eq_true] at h
  exact ⟨h.1.1, h.1.2, h.2⟩

/-- **C10 witness**: a 9 V battery with a zero-ohm resistor; the validator
path sums to 1000 Ω and the simulator current is 9/1000 A. -/
theorem claim_C10_witness :
    CircuitValidator.calculatePathResistance
      [⟨"battery1", none⟩, ⟨"resistor1", some "c1"⟩, ⟨"battery1", some "c2"⟩]
      [sampleBattery, sampleZeroResistor] = 1000 ∧
    CircuitSimulator.calculateCircuitCurrent [sampleBattery, sampleZeroResistor]
      seriesConns = max 0 (sampleBattery.getVoltage / 1000) := by
  obtain ⟨-, -, h3⟩ := claim_C10
  obtain ⟨h31, h32⟩ := h3 sampleBattery sampleZeroResistor "c1" "c2" rfl rfl rfl (by decide)
  exact ⟨h31, h32 seriesConns⟩

/-! ## C1: series circuits -/

/-- **C1.** For every valid series circuit (exactly one battery, at least one
resistor, no diode, classified non-parallel, well-formed properties,
distinct ids): the circuit current equals the source voltage divided by the
sum of resistances; every resistor's computed state carries exactly that
current, voltage `current × resistance`, and power `current × voltage`; the
battery's state carries the same current; and the resistor voltage drops sum
to the source voltage. -/
theorem claim_C1 (cs : List Component) (conns : List Connection) (b : Component)
    (hb : CircuitSimulator.batteriesOf cs = [b])
    (hleds : CircuitSimulator.ledsOf cs = [])
    (hres : CircuitSimulator.resistorsOf cs ≠ [])
    (hwf : ∀ c ∈ cs, wellFormed c = true)
    (hser : CircuitSimulator.areResistorsInParallel (CircuitSimulator.resistorsOf cs) conns
      = false)
    (hnodup : (cs.map Component.id).Nodup) :
    CircuitSimulator.calculateCircuitCurrent cs conns =
      b.getVoltage / ((CircuitSimulator.resistorsOf cs).map Component.getResistance).sum ∧
    (∀ r ∈ CircuitSimulator.resistorsOf cs,
      CircuitSimulator.stateLookup (CircuitSimulator.calculateComponentStates cs conns) r.id =
        some { componentId := r.id,
               voltage := CircuitSimulator.calculateCircuitCurrent cs conns * r.getResistance,
               current := CircuitSimulator.calculateCircuitCurrent cs conns,
               power := CircuitSimulator.calculateCircuitCurrent cs conns *
                 (CircuitSimulator.calculateCircuitCurrent cs conns * r.getResistance),
               isActive := decide (CircuitSimulator.calculateCircuitCurrent cs conns > tolerance),
               brightness := none }) ∧
    CircuitSimulator.stateLookup (CircuitSimulator.calculateComponentStates cs conns) b.id =
      some { componentId := b.id, voltage := b.getVoltage,
             current := CircuitSimulator.calculateCircuitCurrent cs conns,
             power := CircuitSimulator.calculateCircuitCurrent cs conns * b.getVoltage,
             isActive := true, brightness := none } ∧
    ((CircuitSimulator.resistorsOf cs).map
        (fun r => CircuitSimulator.calculateCircuitCurrent cs conns * r.getResistance)).sum =
      b.getVoltage := by
  have hRpos : 0 < ((CircuitSimulator.resistorsOf cs).map Component.getResistance).sum := by
    apply List.sum_pos
    · intro x hx
      rcases List.mem_map.mp hx with ⟨r, hr, rfl⟩
      have hrcs : r ∈ cs := (List.mem_filter.mp hr).1
      exact getResistance_pos r (wellFormed_parts (hwf r hrcs)).1
    · simpa using hres
  have hbmem : b ∈ cs := by
    have : b ∈ CircuitSimulator.batteriesOf cs := by rw [hb]; simp
    exact (List.mem_filter.mp this).1
  have hVpos : 0 < b.getVoltage :=
    getVoltage_pos b (wellFormed_parts (hwf b hbmem)).2.1
  have hV : CircuitSimulator.totalVoltage cs = b.getVoltage := by
    simp [CircuitSimulator.totalVoltage, hb]
  have hEq : CircuitSimulator.equivalentResistance (CircuitSimulator.resistorsOf cs) conns =
      ((CircuitSimulator.resistorsOf cs).map Component.getResistance).sum := by
    unfold CircuitSimulator.equivalentResistance
    rw [if_neg]
    rintro ⟨h1, -⟩
    rw [hser] at h1
    cases h1
  have hctr : CircuitSimulator.circuitTotalResistance cs conns =
      ((CircuitSimulator.resistorsOf cs).map Component.getResistance).sum := by
    unfold CircuitSimulator.circuitTotalResistance
    rw [hEq, hleds]
    simp
  have hcur : CircuitSimulator.calculateCircuitCurrent cs conns =
      b.getVoltage / ((CircuitSimulator.resistorsOf cs).map Component.getResistance).sum := by
    unfold CircuitSimulator.calculateCircuitCurrent
    rw [hb, hleds, hctr, hV]
    rw [if_neg (by simp)]
    rw [if_neg (by simp)]
    rw [if_neg (not_le.mpr hRpos)]
    simp only [List.map_nil, List.sum_nil, sub_zero]
    exact max_eq_right (le_of_lt (div_pos hVpos hRpos))
  refine ⟨hcur, ?_, ?_, ?_⟩
  · intro r hr
    have hrcs : r ∈ cs := (List.mem_filter.mp hr).1
    have hrk : r.kind = .resistor := by
      have := (List.mem_filter.mp hr).2
      simpa using this
    rw [stateLookup_eq cs conns r hnodup hrcs]
    congr 1
    unfold CircuitSimulator.componentState
    rw [hrk]
    dsimp only
    rw [if_neg]
    rintro ⟨h1, -⟩
    rw [hser] at h1
    cases h1
  · have hbk : b.kind = .battery := by
      have : b ∈ CircuitSimulator.batteriesOf cs := by rw [hb]; simp
      have := (List.mem_filter.mp this).2
      simpa using this
    rw [stateLookup_eq cs conns b hnodup hbmem]
    congr 1
    unfold CircuitSimulator.componentState
    rw [hbk]
  · rw [List.sum_map_mul_left, hcur,
      div_mul_cancel₀ _ (ne_of_gt hRpos)]

/-- **C1 witness**: the 9 V battery with a 1000 Ω resistor gives current
9/1000 A, resistor voltage 9 V and power 81/1000 W. -/
theorem claim_C1_witness :
    CircuitSimulator.calculateCircuitCurrent [sampleBattery, sampleResistor] seriesConns
      = 9 / 1000 ∧
    CircuitSimulator.stateLookup
      (CircuitSimulator.calculateComponentStates [sampleBattery, sampleResistor] seriesConns)
      "resistor1" =
      some { componentId := "resistor1", voltage := 9, current := 9 / 1000,
             power := 81 / 1000, isActive := true, brightness := none } := by
  obtain ⟨h1, h2, -, -⟩ :=
    claim_C1 [sampleBattery, sampleResistor] seriesConns sampleBattery
      (by decide) (by decide) (by decide) (by decide) (by decide) (by decide)
  have h2r := h2 sampleResistor (by decide)
  constructor
  · rw [h1]; with_unfolding_all rfl
  · rw [show ("resistor1" : String) = sampleResistor.id from rfl, h2r, h1]
    with_unfolding_all rfl

/-! ## C4: diode conduction -/

theorem calculateCircuitCurrent_nonneg (cs : List Component) (conns : List Connection) :
    0 ≤ CircuitSimulator.calculateCircuitCurrent cs conns := by
  simp only [CircuitSimulator.calculateCircuitCurrent]
  split
  · exact le_refl 0
  split
  · exact le_refl 0
  split
  · exact le_refl 0
  exact le_max_left 0 _

/-- **C4.** Diode handling: (a) a diode whose forward voltage exceeds the
total source voltage forces zero current for the whole series branch and a
zero-brightness, inactive state for that diode; (b) when every diode
conducts (forward voltage within the total source voltage), each conducting
diode contributes a fixed 100 Ω to the total resistance and its forward
voltage is subtracted from the effective voltage driving the current; (c) an
active diode's brightness is its current divided by 20 mA (= 1/50 A),
clamped into `[0,1]`. -/
theorem claim_C4 (cs : List Component) (conns : List Connection) :
    (∀ led ∈ CircuitSimulator.ledsOf cs,
      CircuitSimulator.totalVoltage cs < led.getForwardVoltage →
      CircuitSimulator.calculateCircuitCurrent cs conns = 0 ∧
      CircuitSimulator.componentState cs conns led =
        { componentId := led.id, voltage := 0, current := 0, power := 0,
          isActive := false, brightness := some 0 }) ∧
    ((∀ led ∈ CircuitSimulator.ledsOf cs,
        led.getForwardVoltage ≤ CircuitSimulator.totalVoltage cs) →
      CircuitSimulator.batteriesOf cs ≠ [] →
      CircuitSimulator.calculateCircuitCurrent cs conns =
        (if CircuitSimulator.equivalentResistance (CircuitSimulator.resistorsOf cs) conns
            + 100 * ((CircuitSimulator.ledsOf cs).length : ℚ) ≤ 0 then 0
         else max 0 ((CircuitSimulator.totalVoltage cs -
            ((CircuitSimulator.ledsOf cs).map Component.getForwardVoltage).sum) /
            (CircuitSimulator.equivalentResistance (CircuitSimulator.resistorsOf cs) conns
              + 100 * ((CircuitSimulator.ledsOf cs).length : ℚ))))) ∧
    (∀ led ∈ CircuitSimulator.ledsOf cs,
      (CircuitSimulator.componentState cs conns led).isActive = true →
      (CircuitSimulator.componentState cs conns led).brightness =
        some (min (CircuitSimulator.calculateCircuitCurrent cs conns / (1 / 50)) 1) ∧
      (0 : ℚ) ≤ min (CircuitSimulator.calculateCircuitCurrent cs conns / (1 / 50)) 1 ∧
      min (CircuitSimulator.calculateCircuitCurrent cs conns / (1 / 50)) 1 ≤ 1) := by
  refine ⟨?_, ?_, ?_⟩
  · intro led hled hv
    have hledk : led.kind = .led := by
      have := (List.mem_filter.mp hled).2
      simpa using this
    have hcc : CircuitSimulator.calculateCircuitCurrent cs conns = 0 := by
      unfold CircuitSimulator.calculateCircuitCurrent
      by_cases hbat : (CircuitSimulator.batteriesOf cs).isEmpty = true
      · rw [if_pos hbat]
      · rw [if_neg hbat, if_pos]
        refine List.any_eq_true.mpr ⟨led, hled, ?_⟩
        simpa using hv
    refine ⟨hcc, ?_⟩
    unfold CircuitSimulator.componentState
    rw [hledk]
    dsimp only
    rw [hcc, if_neg]
    rintro ⟨-, h2⟩
    rw [tolerance] at h2
    norm_num at h2
  · intro hcond hbat
    have hany : ((CircuitSimulator.ledsOf cs).any
        (fun led => decide (CircuitSimulator.totalVoltage cs < led.getForwardVoltage))) = false := by
      rw [List.any_eq_false]
      intro led hled
      simpa using hcond led hled
    unfold CircuitSimulator.calculateCircuitCurrent CircuitSimulator.circuitTotalResistance
    rw [if_neg (by simpa using hbat)]
    dsimp only
    rw [hany]
    simp
  · intro led hled hact
    have hledk : led.kind = .led := by
      have := (List.mem_filter.mp hled).2
      simpa using this
    have hcc0 : 0 ≤ CircuitSimulator.calculateCircuitCurrent cs conns :=
      calculateCircuitCurrent_nonneg cs conns
    unfold CircuitSimulator.componentState at hact ⊢
    rw [hledk] at hact ⊢
    dsimp only at hact ⊢
    split at hact
    · rename_i hcase
      rw [if_pos hcase]
      refine ⟨rfl, le_min (div_nonneg hcc0 (by norm_num)) zero_le_one, min_le_right _ _⟩
    · cases hact

/-- **C4 witness**: with a 9 V battery, 1000 Ω resistor and 2 V LED the
diode is active with brightness 7/22 ∈ (0,1]; with a 1 V battery the same
diode yields zero branch current and an inactive zero-brightness state. -/
theorem claim_C4_witness :
    (CircuitSimulator.componentState [sampleBattery, sampleResistor, sampleLED] ledConns
      sampleLED).isActive = true ∧
    (CircuitSimulator.componentState [sampleBattery, sampleResistor, sampleLED] ledConns
      sampleLED).brightness = some (7 / 22) ∧
    CircuitSimulator.totalVoltage [sampleLowBattery, sampleLED] <
      sampleLED.getForwardVoltage ∧
    CircuitSimulator.calculateCircuitCurrent [sampleLowBattery, sampleLED] ledConns = 0 ∧
    CircuitSimulator.componentState [sampleLowBattery, sampleLED] ledConns sampleLED =
      { componentId := "led1", voltage := 0, current := 0, power := 0,
        isActive := false, brightness := some 0 } := by
  have hact : (CircuitSimulator.componentState [sampleBattery, sampleResistor, sampleLED]
      ledConns sampleLED).isActive = true := by with_unfolding_all rfl
  obtain ⟨-, -, h3⟩ := claim_C4 [sampleBattery, sampleResistor, sampleLED] ledConns
  obtain ⟨hbr, -, -⟩ := h3 sampleLED (by decide) hact
  obtain ⟨ha, -, -⟩ := claim_C4 [sampleLowBattery, sampleLED] ledConns
  have hv : CircuitSimulator.totalVoltage [sampleLowBattery, sampleLED] <
      sampleLED.getForwardVoltage := by
    have h1 : CircuitSimulator.totalVoltage [sampleLowBattery, sampleLED] = 1 := by
      with_unfolding_all rfl
    have h2 : sampleLED.getForwardVoltage = 2 := by with_unfolding_all rfl
    rw [h1, h2]
    norm_num
  obtain ⟨hc0, hstate⟩ := ha sampleLED (by decide) hv
  refine ⟨hact, ?_, hv, hc0, hstate⟩
  rw [hbr]
  with_unfolding_all rfl

/-! ## C5: parallel resistor groups -/

theorem setInsert_nodup {l : List String} (h : l.Nodup) (x : String) :
    (setInsert l x).Nodup := by
  unfold setInsert
  split
  · exact h
  · rename_i hx
    simp [List.nodup_append, h, hx]

theorem foldl_setInsert_nodup (l : List String) :
    ∀ acc : List String, acc.Nodup → (l.foldl setInsert acc).Nodup := by
  induction l with
  | nil => intro acc h; exact h
  | cons x rest ih => intro acc h; exact ih _ (setInsert_nodup h x)

theorem setOfList_nodup (l : List String) : (setOfList l).Nodup :=
  foldl_setInsert_nodup l [] (by simp)

theorem otherEndpoints_nodup (r : Component) (conns : List Connection) :
    (CircuitSimulator.otherEndpoints r conns).Nodup :=
  setOfList_nodup _

theorem sameEndpointSets_of_subsets (r1 r2 : Component) (conns : List Connection)
    (h12 : CircuitSimulator.otherEndpoints r1 conns ⊆ CircuitSimulator.otherEndpoints r2 conns)
    (h21 : CircuitSimulator.otherEndpoints r2 conns ⊆ CircuitSimulator.otherEndpoints r1 conns) :
    CircuitSimulator.sameEndpointSets r1 r2 conns = true := by
  have hperm : (CircuitSimulator.otherEndpoints r1 conns).Perm
      (CircuitSimulator.otherEndpoints r2 conns) :=
    (List.subperm_of_subset (otherEndpoints_nodup r1 conns) h12).antisymm
      (List.subperm_of_subset (otherEndpoints_nodup r2 conns) h21)
  unfold CircuitSimulator.sameEndpointSets
  simp only [Bool.and_eq_true, decide_eq_true_eq, List.all_eq_true]
  exact ⟨hperm.length_eq, fun x hx => h12 hx⟩

theorem one_lt_length_of_two_mem {l : List Component} {a b : Component}
    (ha : a ∈ l) (hb : b ∈ l) (hab : a ≠ b) : 1 < l.length := by
  rcases l with _ | ⟨x, _ | ⟨y, t⟩⟩
  · cases ha
  · obtain rfl := List.mem_singleton.mp ha
    obtain rfl := List.mem_singleton.mp hb
    exact absurd rfl hab
  · simp only [List.length_cons]
    omega

theorem areResistorsInParallel_of_pair (resistors : List Component)
    (conns : List Connection) (r1 r2 : Component)
    (h1 : r1 ∈ resistors) (h2 : r2 ∈ resistors) (hne : r1 ≠ r2)
    (h12 : CircuitSimulator.otherEndpoints r1 conns ⊆ CircuitSimulator.otherEndpoints r2 conns)
    (h21 : CircuitSimulator.otherEndpoints r2 conns ⊆ CircuitSimulator.otherEndpoints r1 conns) :
    CircuitSimulator.areResistorsInParallel resistors conns = true := by
  have hlen : 1 < resistors.length := one_lt_length_of_two_mem h1 h2 hne
  obtain ⟨i, hi, hgi⟩ := List.mem_iff_getElem.mp h1
  obtain ⟨j, hj, hgj⟩ := List.mem_iff_getElem.mp h2
  have hij : i ≠ j := by
    intro h
    subst h
    rw [hgi] at hgj
    exact hne hgj
  have hmem : ∀ (k : Nat) (hk : k < resistors.length),
      (k, resistors[k]) ∈ resistors.enum := by
    intro k hk
    rw [List.mk_mem_enum_iff_getElem?]
    exact List.getElem?_eq_getElem hk
  unfold CircuitSimulator.areResistorsInParallel
  rw [if_neg (by omega)]
  rw [List.any_eq_true]
  rcases Nat.lt_or_ge i j with hlt | hge
  · refine ⟨(i, resistors[i]), hmem i hi, ?_⟩
    rw [List.any_eq_true]
    refine ⟨(j, resistors[j]), hmem j hj, ?_⟩
    simp only [Bool.and_eq_true, decide_eq_true_eq]
    refine ⟨hlt, ?_⟩
    rw [hgi, hgj]
    exact sameEndpointSets_of_subsets r1 r2 conns h12 h21
  · have hlt : j < i := by omega
    refine ⟨(j, resistors[j]), hmem j hj, ?_⟩
    rw [List.any_eq_true]
    refine ⟨(i, resistors[i]), hmem i hi, ?_⟩
    simp only [Bool.and_eq_true, decide_eq_true_eq]
    refine ⟨hlt, ?_⟩
    rw [hgi, hgj]
    exact sameEndpointSets_of_subsets r2 r1 conns h21 h12

/-- **C5.** When two distinct resistors have identical other-endpoint
component sets, the simulator classifies the resistors as parallel; every
resistor's computed state then receives the full total source voltage and an
independent current `V / R_i`, and the equivalent resistance used by the
current calculation is the reciprocal of the sum of reciprocals. -/
theorem claim_C5 (cs : List Component) (conns : List Connection) (r1 r2 : Component)
    (h1 : r1 ∈ CircuitSimulator.resistorsOf cs) (h2 : r2 ∈ CircuitSimulator.resistorsOf cs)
    (hne : r1 ≠ r2)
    (h12 : CircuitSimulator.otherEndpoints r1 conns ⊆ CircuitSimulator.otherEndpoints r2 conns)
    (h21 : CircuitSimulator.otherEndpoints r2 conns ⊆ CircuitSimulator.otherEndpoints r1 conns)
    (hnodup : (cs.map Component.id).Nodup) :
    CircuitSimulator.areResistorsInParallel (CircuitSimulator.resistorsOf cs) conns = true ∧
    (∀ r ∈ CircuitSimulator.resistorsOf cs,
      CircuitSimulator.stateLookup (CircuitSimulator.calculateComponentStates cs conns) r.id =
        some { componentId := r.id,
               voltage := CircuitSimulator.totalVoltage cs,
               current := CircuitSimulator.totalVoltage cs / r.getResistance,
               power := CircuitSimulator.totalVoltage cs / r.getResistance *
                 CircuitSimulator.totalVoltage cs,
               isActive :=
                 decide (CircuitSimulator.totalVoltage cs / r.getResistance > tolerance),
               brightness := none }) ∧
    CircuitSimulator.equivalentResistance (CircuitSimulator.resistorsOf cs) conns =
      (((CircuitSimulator.resistorsOf cs).map (fun r => (Component.getResistance r)⁻¹)).sum)⁻¹ := by
  have hpar := areResistorsInParallel_of_pair (CircuitSimulator.resistorsOf cs) conns
    r1 r2 h1 h2 hne h12 h21
  have hlen : 1 < (CircuitSimulator.resistorsOf cs).length :=
    one_lt_length_of_two_mem h1 h2 hne
  refine ⟨hpar, ?_, ?_⟩
  · intro r hr
    have hrcs : r ∈ cs := (List.mem_filter.mp hr).1
    have hrk : r.kind = .resistor := by
      have := (List.mem_filter.mp hr).2
      simpa using this
    rw [stateLookup_eq cs conns r hnodup hrcs]
    congr 1
    unfold CircuitSimulator.componentState
    rw [hrk]
    dsimp only
    rw [if_pos ⟨hpar, hlen⟩]
  · unfold CircuitSimulator.equivalentResistance
    rw [if_pos ⟨hpar, hlen⟩]

/-- **C5 witness**: 100 Ω and 200 Ω resistors in parallel across the 9 V
battery — each sees the full 9 V, currents are 9/100 and 9/200
independently, and the equivalent resistance is `1 / (1/100 + 1/200) =
200/3`. -/
theorem claim_C5_witness :
    CircuitSimulator.areResistorsInParallel
      (CircuitSimulator.resistorsOf [sampleBattery, sampleResistorA, sampleResistorB])
      parallelConns = true ∧
    CircuitSimulator.stateLookup
      (CircuitSimulator.calculateComponentStates
        [sampleBattery, sampleResistorA, sampleResistorB] parallelConns) "resistorA" =
      some { componentId := "resistorA", voltage := 9, current := 9 / 100,
             power := 81 / 100, isActive := true, brightness := none } ∧
    CircuitSimulator.equivalentResistance
      (CircuitSimulator.resistorsOf [sampleBattery, sampleResistorA, sampleResistorB])
      parallelConns = 200 / 3 := by
  obtain ⟨hp, hs, he⟩ := claim_C5 [sampleBattery, sampleResistorA, sampleResistorB]
    parallelConns sampleResistorA sampleResistorB (by decide) (by decide) (by decide)
    (by decide) (by decide) (by decide)
  refine ⟨hp, ?_, ?_⟩
  · have hA := hs sampleResistorA (by decide)
    rw [show ("resistorA" : String) = sampleResistorA.id from rfl, hA]
    with_unfolding_all rfl
  · rw [he]
    with_unfolding_all rfl

/-! ## C9: no non-finite values -/

theorem mapM_option_eq {α β : Type} (f : α → Option β) (g : α → β)
    (l : List α) (h : ∀ x ∈ l, f x = some (g x)) :
    l.mapM f = some (l.map g) := by
  induction l with
  | nil => rfl
  | cons x rest ih =>
      rw [List.mapM_cons, h x (by simp), ih (fun y hy => h y (by simp [hy]))]
      rfl

theorem sum_recip_pos (resistors : List Component)
    (hwf : ∀ r ∈ resistors, resistanceOK r = true) (hne : resistors ≠ []) :
    0 < ((resistors.map (fun r => 1 / r.getResistance)).sum) := by
  apply List.sum_pos
  · intro x hx
    rcases List.mem_map.mp hx with ⟨r, hr, rfl⟩
    exact div_pos one_pos (getResistance_pos r (hwf r hr))
  · simpa using hne

theorem equivalentResistance_checked_eq (resistors : List Component)
    (conns : List Connection)
    (hwf : ∀ r ∈ resistors, resistanceOK r = true) :
    Checked.equivalentResistance resistors conns =
      some (CircuitSimulator.equivalentResistance resistors conns) := by
  unfold Checked.equivalentResistance CircuitSimulator.equivalentResistance
  split
  · rename_i hcase
    have hmap : resistors.mapM (fun r => Checked.dchk 1 r.getResistance) =
        some (resistors.map (fun r => 1 / r.getResistance)) := by
      apply mapM_option_eq
      intro r _
      unfold Checked.dchk
      rw [if_neg (getResistance_ne_zero r)]
    have hne : resistors ≠ [] := by
      intro h
      rw [h] at hcase
      simp at hcase
    have hsum : ((resistors.map (fun r => 1 / r.getResistance)).sum) ≠ 0 :=
      ne_of_gt (sum_recip_pos resistors hwf hne)
    rw [hmap]
    show Checked.dchk 1 _ = _
    unfold Checked.dchk
    rw [if_neg hsum]
    simp only [one_div]
  · rfl

theorem calculateCircuitCurrent_checked_eq (cs : List Component) (conns : List Connection)
    (hwf : ∀ r ∈ CircuitSimulator.resistorsOf cs, resistanceOK r = true) :
    Checked.calculateCircuitCurrent cs conns =
      some (CircuitSimulator.calculateCircuitCurrent cs conns) := by
  unfold Checked.calculateCircuitCurrent CircuitSimulator.calculateCircuitCurrent
    CircuitSimulator.circuitTotalResistance
  dsimp only
  split
  · rfl
  split
  · rfl
  rw [equivalentResistance_checked_eq (CircuitSimulator.resistorsOf cs) conns hwf]
  show (if _ ≤ (0 : ℚ) then some 0 else _) = _
  split
  · rfl
  · rename_i hgt
    show (Checked.dchk _ _).map _ = _
    unfold Checked.dchk
    rw [if_neg]
    · rfl
    · intro h0
      rw [h0] at hgt
      exact hgt (le_refl 0)

theorem componentState_checked_eq (cs : List Component) (conns : List Connection)
    (c : Component)
    (hwf : ∀ r ∈ CircuitSimulator.resistorsOf cs, resistanceOK r = true) :
    Checked.componentState cs conns c =
      some (CircuitSimulator.componentState cs conns c) := by
  unfold Checked.componentState CircuitSimulator.componentState
  cases c.kind
  case resistor =>
    dsimp only
    split
    · show (Checked.dchk _ _).bind _ = _
      unfold Checked.dchk
      rw [if_neg (getResistance_ne_zero c)]
      rfl
    · rw [calculateCircuitCurrent_checked_eq cs conns hwf]
      rfl
  case battery =>
    rw [calculateCircuitCurrent_checked_eq cs conns hwf]
    rfl
  case led =>
    rw [calculateCircuitCurrent_checked_eq cs conns hwf]
    show (if _ then _ else _ : Option ComponentState) = some (if _ then _ else _)
    split
    · show (Checked.dchk _ _).bind _ = _
      unfold Checked.dchk
      rw [if_neg (by norm_num : (1 : ℚ) / 50 ≠ 0)]
      rfl
    · rfl
  case wire => rfl

theorem foldlM_states_eq (cs : List Component) (conns : List Connection)
    (hwf : ∀ r ∈ CircuitSimulator.resistorsOf cs, resistanceOK r = true) :
    ∀ (l : List Component) (init : List ComponentState),
      l.foldlM (fun m c => (Checked.componentState cs conns c).map
        (fun s => CircuitSimulator.stateMapSet m s)) init =
      some (l.foldl (fun m c =>
        CircuitSimulator.stateMapSet m (CircuitSimulator.componentState cs conns c)) init) := by
  intro l
  induction l with
  | nil => intro init; rfl
  | cons c rest ih =>
      intro init
      rw [List.foldlM_cons, componentState_checked_eq cs conns c hwf]
      show rest.foldlM _ (CircuitSimulator.stateMapSet init _) = _
      rw [ih]
      rfl

/-- **C9.** For well-formed input no simulated quantity is produced by a
division with zero denominator (the checked computation, in which every
division the source performs fails on a zero denominator, succeeds and
returns exactly the unchecked states); every node voltage is the finite
constant 0; and a non-positive total circuit resistance is special-cased to
zero current. -/
theorem claim_C9 (cs : List Component) (conns : List Connection)
    (hwf : ∀ c ∈ cs, wellFormed c = true) :
    Checked.calculateComponentStates cs conns =
      some (CircuitSimulator.calculateComponentStates cs conns) ∧
    (∀ n ∈ CircuitSimulator.buildCircuitNodes conns, n.voltage = 0) ∧
    (CircuitSimulator.circuitTotalResistance cs conns ≤ 0 →
      CircuitSimulator.calculateCircuitCurrent cs conns = 0) := by
  have hwfr : ∀ r ∈ CircuitSimulator.resistorsOf cs, resistanceOK r = true := by
    intro r hr
    exact (wellFormed_parts (hwf r (List.mem_filter.mp hr).1)).1
  refine ⟨?_, ?_, ?_⟩
  · unfold Checked.calculateComponentStates CircuitSimulator.calculateComponentStates
    exact foldlM_states_eq cs conns hwfr cs []
  · intro n hn
    unfold CircuitSimulator.buildCircuitNodes at hn
    split at hn
    · cases hn
    · split at hn
      · cases hn
      · rcases List.mem_append.mp hn with h | h
        · rcases List.mem_map.mp h with ⟨g, -, rfl⟩
          rfl
        · rw [List.mem_singleton.mp h]
  · intro hle
    unfold CircuitSimulator.calculateCircuitCurrent
    dsimp only
    split
    · rfl
    split
    · rfl
    simp [hle]

/-- **C9 witness**: the checked computation succeeds on the series sample,
and a lone battery (zero total resistance) takes the special case and
produces zero current rather than a non-finite value. -/
theorem claim_C9_witness :
    Checked.calculateComponentStates [sampleBattery, sampleResistor] seriesConns =
      some (CircuitSimulator.calculateComponentStates [sampleBattery, sampleResistor]
        seriesConns) ∧
    CircuitSimulator.circuitTotalResistance [sampleBattery] [] ≤ 0 ∧
    CircuitSimulator.calculateCircuitCurrent [sampleBattery] [] = 0 := by
  obtain ⟨h1, -, -⟩ := claim_C9 [sampleBattery, sampleResistor] seriesConns (by decide)
  obtain ⟨-, -, h3⟩ := claim_C9 [sampleBattery] [] (by decide)
  have hzero : CircuitSimulator.circuitTotalResistance [sampleBattery] [] = 0 := by
    with_unfolding_all rfl
  have hle : CircuitSimulator.circuitTotalResistance [sampleBattery] [] ≤ 0 := by
    rw [hzero]
  exact ⟨h1, hle, h3 hle⟩

/-! ## C8: write-back of diode state -/

/-- **C8 counterexample.** On the valid battery–resistor–LED circuit,
`simulate` does not leave the caller's components unchanged: the LED's
stored `brightness` (0 before the call) is overwritten with the computed
7/22, and its stored `isLit` flips to `true`. -/
theorem claim_C8_counterexample :
    (CircuitSimulator.simulate [sampleBattery, sampleResistor, sampleLED] ledConns).2 ≠
      [sampleBattery, sampleResistor, sampleLED] ∧
    ((CircuitSimulator.simulate [sampleBattery, sampleResistor, sampleLED] ledConns).2.map
      Component.brightness) = [0, 0, 7 / 22] ∧
    sampleLED.brightness = 0 ∧
    sampleLED.isLit = false ∧
    ((CircuitSimulator.simulate [sampleBattery, sampleResistor, sampleLED] ledConns).2.map
      Component.isLit) = [false, false, true] := by
  have hbr : ((CircuitSimulator.simulate [sampleBattery, sampleResistor, sampleLED]
      ledConns).2.map Component.brightness) = [0, 0, 7 / 22] := by
    with_unfolding_all rfl
  refine ⟨?_, hbr, rfl, rfl, by with_unfolding_all rfl⟩
  intro h
  rw [h] at hbr
  have h0 : ([0, 0, 0] : List ℚ) = [0, 0, 7 / 22] := by
    calc ([0, 0, 0] : List ℚ)
        = [sampleBattery, sampleResistor, sampleLED].map Component.brightness := by
          with_unfolding_all rfl
      _ = [0, 0, 7 / 22] := hbr
  simp only [List.cons.injEq] at h0
  norm_num at h0

/-- **C8 amended.** `simulate` leaves the components untouched on aborted
runs, but on a successful run it writes the computed activation and
brightness back into the caller's LED components via
`updateComponentProperties`; non-LED components and every field other than
`isLit`/`brightness` are preserved. -/
theorem claim_C8_amended (cs : List Component) (conns : List Connection) :
    ((CircuitSimulator.simulate cs conns).1.isValid = false →
      (CircuitSimulator.simulate cs conns).2 = cs) ∧
    ((CircuitSimulator.simulate cs conns).1.isValid = true →
      (CircuitSimulator.simulate cs conns).2 =
        cs.map (CircuitSimulator.updateLED
          ((CircuitSimulator.simulate cs conns).1.componentStates))) ∧
    (∀ (m : List ComponentState) (c : Component), c.kind ≠ .led →
      CircuitSimulator.updateLED m c = c) ∧
    (∀ (m : List ComponentState) (c : Component),
      (CircuitSimulator.updateLED m c).id = c.id ∧
      (CircuitSimulator.updateLED m c).kind = c.kind ∧
      (CircuitSimulator.updateLED m c).resistance = c.resistance ∧
      (CircuitSimulator.updateLED m c).voltage = c.voltage ∧
      (CircuitSimulator.updateLED m c).forwardVoltage = c.forwardVoltage ∧
      (CircuitSimulator.updateLED m c).wirePoints = c.wirePoints) := by
  refine ⟨?_, ?_, ?_, ?_⟩
  · unfold CircuitSimulator.simulate
    dsimp only
    by_cases h1 : (CircuitSimulator.validateConnections cs conns).isValid = false
    · rw [if_pos h1]
      intro _
      rfl
    · rw [if_neg h1]
      by_cases h2 : (CircuitSimulator.simValidateCircuit cs conns).isValid = false
      · rw [if_pos h2]
        intro _
        rfl
      · rw [if_neg h2]
        intro h
        cases h
  · unfold CircuitSimulator.simulate
    dsimp only
    by_cases h1 : (CircuitSimulator.validateConnections cs conns).isValid = false
    · rw [if_pos h1]
      intro h
      cases h
    · rw [if_neg h1]
      by_cases h2 : (CircuitSimulator.simValidateCircuit cs conns).isValid = false
      · rw [if_pos h2]
        intro h
        cases h
      · rw [if_neg h2]
        intro _
        rfl
  · intro m c hk
    unfold CircuitSimulator.updateLED
    cases hs : CircuitSimulator.stateLookup m c.id
    · rfl
    · dsimp only
      rw [if_neg hk]
  · intro m c
    unfold CircuitSimulator.updateLED
    cases hs : CircuitSimulator.stateLookup m c.id
    · exact ⟨rfl, rfl, rfl, rfl, rfl, rfl⟩
    · rename_i s
      dsimp only
      split
      · cases hb : s.brightness <;> dsimp only <;> exact ⟨rfl, rfl, rfl, rfl, rfl, rfl⟩
      · exact ⟨rfl, rfl, rfl, rfl, rfl, rfl⟩

/-- **C8 amended witness**: on the battery–resistor–LED circuit the
successful run rewrites the component list exactly as
`updateComponentProperties` prescribes. -/
theorem claim_C8_amended_witness :
    (CircuitSimulator.simulate [sampleBattery, sampleResistor, sampleLED] ledConns).2 =
      [sampleBattery, sampleResistor, sampleLED].map
        (CircuitSimulator.updateLED
          ((CircuitSimulator.simulate [sampleBattery, sampleResistor, sampleLED]
            ledConns).1.componentStates)) := by
  obtain ⟨-, h2, -, -⟩ := claim_C8_amended [sampleBattery, sampleResistor, sampleLED] ledConns
  exact h2 (by with_unfolding_all rfl)

/-! ## C7: hidden state across calls

The simulator's write-back touches only `isLit`/`brightness`, which no
simulation function reads.  The congruence lemmas below show every
simulator computation is invariant under any component transformation that
preserves the six fields the simulator does read. -/

section Congruence

variable (f : Component → Component)

theorem getResistance_congr (hres : ∀ c, (f c).resistance = c.resistance) (c : Component) :
    (f c).getResistance = c.getResistance := by
  unfold Component.getResistance
  rw [hres]

theorem getVoltage_congr (hvolt : ∀ c, (f c).voltage = c.voltage) (c : Component) :
    (f c).getVoltage = c.getVoltage := by
  unfold Component.getVoltage
  rw [hvolt]

theorem getForwardVoltage_congr (hfv : ∀ c, (f c).forwardVoltage = c.forwardVoltage)
    (c : Component) : (f c).getForwardVoltage = c.getForwardVoltage := by
  unfold Component.getForwardVoltage
  rw [hfv]

theorem terminalList_congr (hkind : ∀ c, (f c).kind = c.kind)
    (hwp : ∀ c, (f c).wirePoints = c.wirePoints) (c : Component) :
    (f c).terminalList = c.terminalList := by
  unfold Component.terminalList
  rw [hkind, hwp]

theorem filter_kind_congr (hkind : ∀ c, (f c).kind = c.kind) (k : CompKind)
    (cs : List Component) :
    (cs.map f).filter (fun c => c.kind = k) = (cs.filter (fun c => c.kind = k)).map f := by
  rw [List.filter_map]
  congr 1
  apply List.filter_congr
  intro c _
  simp [Function.comp, hkind]

theorem batteriesOf_congr (hkind : ∀ c, (f c).kind = c.kind) (cs : List Component) :
    CircuitSimulator.batteriesOf (cs.map f) = (CircuitSimulator.batteriesOf cs).map f :=
  filter_kind_congr f hkind .battery cs

theorem resistorsOf_congr (hkind : ∀ c, (f c).kind = c.kind) (cs : List Component) :
    CircuitSimulator.resistorsOf (cs.map f) = (CircuitSimulator.resistorsOf cs).map f :=
  filter_kind_congr f hkind .resistor cs

theorem ledsOf_congr (hkind : ∀ c, (f c).kind = c.kind) (cs : List Component) :
    CircuitSimulator.ledsOf (cs.map f) = (CircuitSimulator.ledsOf cs).map f :=
  filter_kind_congr f hkind .led cs

theorem totalVoltage_congr (hkind : ∀ c, (f c).kind = c.kind)
    (hvolt : ∀ c, (f c).voltage = c.voltage) (cs : List Component) :
    CircuitSimulator.totalVoltage (cs.map f) = CircuitSimulator.totalVoltage cs := by
  unfold CircuitSimulator.totalVoltage
  rw [batteriesOf_congr f hkind, List.map_map]
  congr 1
  apply List.map_congr_left
  intro c _
  exact getVoltage_congr f hvolt c

theorem findComponent_congr (hid : ∀ c, (f c).id = c.id) (cs : List Component) (x : String) :
    findComponent (cs.map f) x = (findComponent cs x).map f := by
  unfold findComponent
  rw [List.find?_map]
  have hp : ((fun c : Component => decide (c.id = x)) ∘ f) =
      (fun c : Component => decide (c.id = x)) := by
    funext c
    simp [Function.comp, hid]
  rw [hp]

theorem componentMapGet_congr (hid : ∀ c, (f c).id = c.id) (cs : List Component) (x : String) :
    CircuitSimulator.componentMapGet (cs.map f) x =
      (CircuitSimulator.componentMapGet cs x).map f := by
  unfold CircuitSimulator.componentMapGet
  rw [List.filter_map]
  rw [show (cs.filter ((fun c => decide (c.id = x)) ∘ f)) = cs.filter (fun c => c.id = x) by
    apply List.filter_congr
    intro c _
    simp [Function.comp, hid]]
  rw [List.getLast?_map]

theorem connectionCheck_congr (hid : ∀ c, (f c).id = c.id)
    (hkind : ∀ c, (f c).kind = c.kind) (hwp : ∀ c, (f c).wirePoints = c.wirePoints)
    (cs : List Component) (conn : Connection) :
    CircuitSimulator.connectionCheck (cs.map f) conn =
      CircuitSimulator.connectionCheck cs conn := by
  unfold CircuitSimulator.connectionCheck
  rw [componentMapGet_congr f hid, componentMapGet_congr f hid]
  cases CircuitSimulator.componentMapGet cs conn.fromComponent with
  | none => rfl
  | some fc =>
      cases CircuitSimulator.componentMapGet cs conn.toComponent with
      | none => rfl
      | some tc =>
          dsimp only [Option.map_some']
          rw [terminalList_congr f hkind hwp fc, terminalList_congr f hkind hwp tc]

theorem validateConnections_congr (hid : ∀ c, (f c).id = c.id)
    (hkind : ∀ c, (f c).kind = c.kind) (hwp : ∀ c, (f c).wirePoints = c.wirePoints)
    (cs : List Component) (conns : List Connection) :
    CircuitSimulator.validateConnections (cs.map f) conns =
      CircuitSimulator.validateConnections cs conns := by
  unfold CircuitSimulator.validateConnections
  simp only [connectionCheck_congr f hid hkind hwp cs]

theorem disconnectedWarning_congr (hid : ∀ c, (f c).id = c.id)
    (hkind : ∀ c, (f c).kind = c.kind) (conns : List Connection) (c : Component) :
    CircuitSimulator.disconnectedWarning conns (f c) =
      CircuitSimulator.disconnectedWarning conns c := by
  unfold CircuitSimulator.disconnectedWarning
  rw [hid, hkind]

theorem wireBridgeError_congr (hid : ∀ c, (f c).id = c.id)
    (hkind : ∀ c, (f c).kind = c.kind) (cs : List Component) (conns : List Connection)
    (b : Component) (connection : Connection) :
    CircuitSimulator.wireBridgeError (cs.map f) conns (f b) connection =
      CircuitSimulator.wireBridgeError cs conns b connection := by
  unfold CircuitSimulator.wireBridgeError
  dsimp only
  rw [hid, findComponent_congr f hid]
  cases findComponent cs (CircuitSimulator.otherEndpoint b.id connection) with
  | none => rfl
  | some oc =>
      dsimp only [Option.map_some']
      rw [hkind oc]

theorem simValidateCircuit_congr (hid : ∀ c, (f c).id = c.id)
    (hkind : ∀ c, (f c).kind = c.kind) (cs : List Component) (conns : List Connection) :
    CircuitSimulator.simValidateCircuit (cs.map f) conns =
      CircuitSimulator.simValidateCircuit cs conns := by
  unfold CircuitSimulator.simValidateCircuit
  dsimp only
  rw [batteriesOf_congr f hkind, List.filterMap_map, List.flatMap_map]
  have hw : (CircuitSimulator.disconnectedWarning conns ∘ f) =
      CircuitSimulator.disconnectedWarning conns :=
    funext (fun c => disconnectedWarning_congr f hid hkind conns c)
  rw [hw]
  have hbody : (fun a : Component =>
      (CircuitSimulator.connectionsOf (f a).id conns).flatMap
        (CircuitSimulator.wireBridgeError (cs.map f) conns (f a))) =
      (fun battery : Component =>
        (CircuitSimulator.connectionsOf battery.id conns).flatMap
          (CircuitSimulator.wireBridgeError cs conns battery)) := by
    funext b
    rw [hid]
    congr 1
    funext connection
    exact wireBridgeError_congr f hid hkind cs conns b connection
  rw [hbody]
  have hie : (List.map f (CircuitSimulator.batteriesOf cs)).isEmpty =
      (CircuitSimulator.batteriesOf cs).isEmpty := by
    cases CircuitSimulator.batteriesOf cs <;> rfl
  rw [hie]

theorem otherEndpoints_congr (hid : ∀ c, (f c).id = c.id) (r : Component)
    (conns : List Connection) :
    CircuitSimulator.otherEndpoints (f r) conns = CircuitSimulator.otherEndpoints r conns := by
  unfold CircuitSimulator.otherEndpoints CircuitSimulator.connectionsOf
    CircuitSimulator.otherEndpoint
  rw [hid]

theorem sameEndpointSets_congr (hid : ∀ c, (f c).id = c.id) (r1 r2 : Component)
    (conns : List Connection) :
    CircuitSimulator.sameEndpointSets (f r1) (f r2) conns =
      CircuitSimulator.sameEndpointSets r1 r2 conns := by
  unfold CircuitSimulator.sameEndpointSets
  rw [otherEndpoints_congr f hid, otherEndpoints_congr f hid]

theorem areResistorsInParallel_congr (hid : ∀ c, (f c).id = c.id)
    (resistors : List Component) (conns : List Connection) :
    CircuitSimulator.areResistorsInParallel (resistors.map f) conns =
      CircuitSimulator.areResistorsInParallel resistors conns := by
  unfold CircuitSimulator.areResistorsInParallel
  rw [List.length_map, List.enum_map]
  by_cases hlen : resistors.length < 2
  · rw [if_pos hlen, if_pos hlen]
  · rw [if_neg hlen, if_neg hlen]
    rw [List.any_map]
    congr 1
    funext p
    simp only [Function.comp_apply]
    rw [List.any_map]
    congr 1
    funext q
    simp only [Function.comp_apply, Prod.map_fst, Prod.map_snd, id_eq]
    rw [sameEndpointSets_congr f hid]

theorem equivalentResistance_congr (hid : ∀ c, (f c).id = c.id)
    (hres : ∀ c, (f c).resistance = c.resistance)
    (resistors : List Component) (conns : List Connection) :
    CircuitSimulator.equivalentResistance (resistors.map f) conns =
      CircuitSimulator.equivalentResistance resistors conns := by
  unfold CircuitSimulator.equivalentResistance
  rw [areResistorsInParallel_congr f hid, List.length_map]
  have hmap1 : resistors.map ((fun r => (Component.getResistance r)⁻¹) ∘ f) =
      resistors.map (fun r => (Component.getResistance r)⁻¹) :=
    List.map_congr_left (fun r _ => by
      simp only [Function.comp_apply]
      rw [getResistance_congr f hres])
  have hmap2 : resistors.map (Component.getResistance ∘ f) =
      resistors.map Component.getResistance :=
    List.map_congr_left (fun r _ => by
      simp only [Function.comp_apply]
      rw [getResistance_congr f hres])
  split
  · rw [List.map_map, hmap1]
  · rw [List.map_map, hmap2]

theorem calculateCircuitCurrent_congr (hid : ∀ c, (f c).id = c.id)
    (hkind : ∀ c, (f c).kind = c.kind) (hres : ∀ c, (f c).resistance = c.resistance)
    (hvolt : ∀ c, (f c).voltage = c.voltage)
    (hfv : ∀ c, (f c).forwardVoltage = c.forwardVoltage)
    (cs : List Component) (conns : List Connection) :
    CircuitSimulator.calculateCircuitCurrent (cs.map f) conns =
      CircuitSimulator.calculateCircuitCurrent cs conns := by
  unfold CircuitSimulator.calculateCircuitCurrent CircuitSimulator.circuitTotalResistance
  dsimp only
  rw [batteriesOf_congr f hkind, ledsOf_congr f hkind, resistorsOf_congr f hkind,
    totalVoltage_congr f hkind hvolt, equivalentResistance_congr f hid hres,
    List.length_map, List.any_map]
  have hie : (List.map f (CircuitSimulator.batteriesOf cs)).isEmpty =
      (CircuitSimulator.batteriesOf cs).isEmpty := by
    cases CircuitSimulator.batteriesOf cs <;> rfl
  rw [hie]
  have hany : ((CircuitSimulator.ledsOf cs).any ((fun led =>
      decide (CircuitSimulator.totalVoltage cs < led.getForwardVoltage)) ∘ f)) =
      ((CircuitSimulator.ledsOf cs).any (fun led =>
      decide (CircuitSimulator.totalVoltage cs < led.getForwardVoltage))) := by
    congr 1
    funext led
    simp only [Function.comp_apply]
    rw [getForwardVoltage_congr f hfv]
  rw [hany]
  have hfvsum : (List.map f (CircuitSimulator.ledsOf cs)).map Component.getForwardVoltage =
      (CircuitSimulator.ledsOf cs).map Component.getForwardVoltage := by
    rw [List.map_map]
    exact List.map_congr_left (fun led _ => by
      simp only [Function.comp_apply]
      rw [getForwardVoltage_congr f hfv])
  rw [hfvsum]

theorem componentState_congr (hid : ∀ c, (f c).id = c.id)
    (hkind : ∀ c, (f c).kind = c.kind) (hres : ∀ c, (f c).resistance = c.resistance)
    (hvolt : ∀ c, (f c).voltage = c.voltage)
    (hfv : ∀ c, (f c).forwardVoltage = c.forwardVoltage)
    (cs : List Component) (conns : List Connection) (c : Component) :
    CircuitSimulator.componentState (cs.map f) conns (f c) =
      CircuitSimulator.componentState cs conns c := by
  have hressum : (List.map Component.getResistance
      (CircuitSimulator.resistorsOf (cs.map f))).sum =
      (List.map Component.getResistance (CircuitSimulator.resistorsOf cs)).sum := by
    rw [resistorsOf_congr f hkind, List.map_map]
    congr 1
    exact List.map_congr_left (fun r _ => by
      simp only [Function.comp_apply]
      rw [getResistance_congr f hres])
  unfold CircuitSimulator.componentState
  rw [hkind c]
  cases hck : c.kind
  case resistor =>
      dsimp only
      rw [resistorsOf_congr f hkind, areResistorsInParallel_congr f hid, List.length_map,
        totalVoltage_congr f hkind hvolt, getResistance_congr f hres,
        calculateCircuitCurrent_congr f hid hkind hres hvolt hfv, hid c]
  case battery =>
      dsimp only
      rw [getVoltage_congr f hvolt, calculateCircuitCurrent_congr f hid hkind hres hvolt hfv,
        hid c]
  case led =>
      dsimp only
      rw [getForwardVoltage_congr f hfv, calculateCircuitCurrent_congr f hid hkind hres hvolt hfv,
        totalVoltage_congr f hkind hvolt, hressum, hid c]
  case wire =>
      dsimp only
      rw [hid c]

theorem calculateComponentStates_congr (hid : ∀ c, (f c).id = c.id)
    (hkind : ∀ c, (f c).kind = c.kind) (hres : ∀ c, (f c).resistance = c.resistance)
    (hvolt : ∀ c, (f c).voltage = c.voltage)
    (hfv : ∀ c, (f c).forwardVoltage = c.forwardVoltage)
    (cs : List Component) (conns : List Connection) :
    CircuitSimulator.calculateComponentStates (cs.map f) conns =
      CircuitSimulator.calculateComponentStates cs conns := by
  unfold CircuitSimulator.calculateComponentStates
  rw [List.foldl_map]
  congr 1
  funext m c
  rw [componentState_congr f hid hkind hres hvolt hfv]

end Congruence

theorem updateLED_id (m : List ComponentState) : ∀ c : Component,
    (CircuitSimulator.updateLED m c).id = c.id := by
  intro c
  unfold CircuitSimulator.updateLED
  cases CircuitSimulator.stateLookup m c.id
  · rfl
  · rename_i s
    dsimp only
    split
    · cases s.brightness <;> rfl
    · rfl

theorem updateLED_kind (m : List ComponentState) : ∀ c : Component,
    (CircuitSimulator.updateLED m c).kind = c.kind := by
  intro c
  unfold CircuitSimulator.updateLED
  cases CircuitSimulator.stateLookup m c.id
  · rfl
  · rename_i s
    dsimp only
    split
    · cases s.brightness <;> rfl
    · rfl

theorem updateLED_resistance (m : List ComponentState) : ∀ c : Component,
    (CircuitSimulator.updateLED m c).resistance = c.resistance := by
  intro c
  unfold CircuitSimulator.updateLED
  cases CircuitSimulator.stateLookup m c.id
  · rfl
  · rename_i s
    dsimp only
    split
    · cases s.brightness <;> rfl
    · rfl

theorem updateLED_voltage (m : List ComponentState) : ∀ c : Component,
    (CircuitSimulator.updateLED m c).voltage = c.voltage := by
  intro c
  unfold CircuitSimulator.updateLED
  cases CircuitSimulator.stateLookup m c.id
  · rfl
  · rename_i s
    dsimp only
    split
    · cases s.brightness <;> rfl
    · rfl

theorem updateLED_forwardVoltage (m : List ComponentState) : ∀ c : Component,
    (CircuitSimulator.updateLED m c).forwardVoltage = c.forwardVoltage := by
  intro c
  unfold CircuitSimulator.updateLED
  cases CircuitSimulator.stateLookup m c.id
  · rfl
  · rename_i s
    dsimp only
    split
    · cases s.brightness <;> rfl
    · rfl

theorem updateLED_wirePoints (m : List ComponentState) : ∀ c : Component,
    (CircuitSimulator.updateLED m c).wirePoints = c.wirePoints := by
  intro c
  unfold CircuitSimulator.updateLED
  cases CircuitSimulator.stateLookup m c.id
  · rfl
  · rename_i s
    dsimp only
    split
    · cases s.brightness <;> rfl
    · rfl

theorem updateLED_none (m : List ComponentState) (c : Component)
    (hs : CircuitSimulator.stateLookup m c.id = none) :
    CircuitSimulator.updateLED m c = c := by
  unfold CircuitSimulator.updateLED
  rw [hs]

theorem updateLED_not_led (m : List ComponentState) (c : Component) (s : ComponentState)
    (hs : CircuitSimulator.stateLookup m c.id = some s) (hk : c.kind ≠ .led) :
    CircuitSimulator.updateLED m c = c := by
  unfold CircuitSimulator.updateLED
  rw [hs]
  dsimp only
  rw [if_neg hk]

theorem updateLED_led_none (m : List ComponentState) (c : Component) (s : ComponentState)
    (hs : CircuitSimulator.stateLookup m c.id = some s) (hk : c.kind = .led)
    (hb : s.brightness = none) :
    CircuitSimulator.updateLED m c = c.setLit s.isActive := by
  unfold CircuitSimulator.updateLED
  rw [hs]
  dsimp only
  rw [if_pos hk, hb]

theorem updateLED_led_some (m : List ComponentState) (c : Component) (s : ComponentState)
    (b : ℚ) (hs : CircuitSimulator.stateLookup m c.id = some s) (hk : c.kind = .led)
    (hb : s.brightness = some b) :
    CircuitSimulator.updateLED m c = (c.setLit s.isActive).setBrightness b := by
  unfold CircuitSimulator.updateLED
  rw [hs]
  dsimp only
  rw [if_pos hk, hb]

theorem updateLED_idem (m : List ComponentState) (c : Component) :
    CircuitSimulator.updateLED m (CircuitSimulator.updateLED m c) =
      CircuitSimulator.updateLED m c := by
  cases hs : CircuitSimulator.stateLookup m c.id with
  | none =>
      rw [updateLED_none m c hs, updateLED_none m c hs]
  | some s =>
      by_cases hk : c.kind = .led
      · cases hb : s.brightness with
        | none =>
            rw [updateLED_led_none m c s hs hk hb]
            rw [updateLED_led_none m (c.setLit s.isActive) s (by exact hs) (by exact hk) hb]
            rfl
        | some b =>
            rw [updateLED_led_some m c s b hs hk hb]
            rw [updateLED_led_some m ((c.setLit s.isActive).setBrightness b) s b
              (by exact hs) (by exact hk) hb]
            rfl
      · rw [updateLED_not_led m c s hs hk, updateLED_not_led m c s hs hk]

theorem simulate_idem (cs : List Component) (conns : List Connection) :
    CircuitSimulator.simulate (CircuitSimulator.simulate cs conns).2 conns =
      CircuitSimulator.simulate cs conns := by
  unfold CircuitSimulator.simulate
  dsimp only
  by_cases h1 : (CircuitSimulator.validateConnections cs conns).isValid = false
  · simp only [if_pos h1]
  · by_cases h2 : (CircuitSimulator.simValidateCircuit cs conns).isValid = false
    · simp only [if_neg h1, if_pos h2]
    · simp only [if_neg h1, if_neg h2]
      unfold CircuitSimulator.updateComponentProperties
      rw [validateConnections_congr (CircuitSimulator.updateLED
          (CircuitSimulator.calculateComponentStates cs conns))
        (updateLED_id _) (updateLED_kind _) (updateLED_wirePoints _) cs conns]
      rw [simValidateCircuit_congr (CircuitSimulator.updateLED
          (CircuitSimulator.calculateComponentStates cs conns))
        (updateLED_id _) (updateLED_kind _) cs conns]
      rw [calculateComponentStates_congr (CircuitSimulator.updateLED
          (CircuitSimulator.calculateComponentStates cs conns))
        (updateLED_id _) (updateLED_kind _) (updateLED_resistance _) (updateLED_voltage _)
        (updateLED_forwardVoltage _) cs conns]
      simp only [if_neg h1, if_neg h2]
      congr 1
      rw [List.map_map]
      exact List.map_congr_left (fun c _ => by
        simp only [Function.comp_apply]
        exact updateLED_idem _ c)

theorem isEmpty_eq_of_length_eq {α β : Type} {l1 : List α} {l2 : List β}
    (h : l1.length = l2.length) : l1.isEmpty = l2.isEmpty := by
  cases l1 <;> cases l2 <;> simp_all

theorem assignIds_filter_stripId (s : Severity) (l : List CircuitError) :
    ∀ n : Nat,
      ((CircuitValidator.assignIds n l).filter (fun e => e.severity = s)).map stripId =
        (l.filter (fun e => e.severity = s)).map stripId ∧
      ((CircuitValidator.assignIds n l).filter (fun e => e.severity = s)).length =
        (l.filter (fun e => e.severity = s)).length := by
  induction l with
  | nil => intro n; exact ⟨rfl, rfl⟩
  | cons e rest ih =>
      intro n
      simp only [CircuitValidator.assignIds, List.filter_cons]
      by_cases hs : e.severity = s
      · rw [if_pos (by exact decide_eq_true hs), if_pos (decide_eq_true hs)]
        simp only [List.map_cons, List.length_cons]
        refine ⟨?_, by rw [(ih (n + 1)).2]⟩
        rw [(ih (n + 1)).1]
        rfl
      · rw [if_neg (by simpa using hs), if_neg (by simpa using hs)]
        exact ih (n + 1)

/-- **C7 counterexample.** A lone battery produces an open-circuit error;
calling `validateCircuit` a second time with the unchanged input (the
instance counter having advanced past the faults of the first call) yields a
different result: the fault ids differ (`error_1` vs `error_3`), so the
output is not identical in every field. -/
theorem claim_C7_counterexample :
    (CircuitValidator.validateCircuit [sampleBattery] [] 0).1 ≠
      (CircuitValidator.validateCircuit [sampleBattery] []
        (CircuitValidator.validateCircuit [sampleBattery] [] 0).2).1 := by
  intro h
  have h1 : ((CircuitValidator.validateCircuit [sampleBattery] [] 0).1.errors.map
      CircuitError.id) = ["error_1"] := by with_unfolding_all rfl
  have h2 : ((CircuitValidator.validateCircuit [sampleBattery] []
      (CircuitValidator.validateCircuit [sampleBattery] [] 0).2).1.errors.map
      CircuitError.id) = ["error_3"] := by with_unfolding_all rfl
  rw [h] at h1
  have h3 : (["error_1"] : List String) = ["error_3"] := h1.symm.trans h2
  simp at h3

/-- **C7 amended.** Repeated calls are free of hidden state drift except for
the generated fault ids: `validateCircuit` called at any two counter values
yields identical results once ids are blanked (and advances its counter by
the number of emitted faults, which is what makes the raw ids differ); and
`simulate` called a second time — on the component list as the first call
left it — returns the identical result and leaves the components fixed. -/
theorem claim_C7_amended (cs : List Component) (conns : List Connection) (n k : Nat) :
    eraseIds (CircuitValidator.validateCircuit cs conns n).1 =
      eraseIds (CircuitValidator.validateCircuit cs conns k).1 ∧
    (CircuitValidator.validateCircuit cs conns n).2 =
      n + (CircuitValidator.checks cs conns).length ∧
    CircuitSimulator.simulate (CircuitSimulator.simulate cs conns).2 conns =
      CircuitSimulator.simulate cs conns := by
  refine ⟨?_, rfl, simulate_idem cs conns⟩
  unfold CircuitValidator.validateCircuit eraseIds
  dsimp only
  have hE := fun j => assignIds_filter_stripId .error (CircuitValidator.checks cs conns) j
  have hW := fun j => assignIds_filter_stripId .warning (CircuitValidator.checks cs conns) j
  have hI := fun j => assignIds_filter_stripId .info (CircuitValidator.checks cs conns) j
  have hempty : ∀ j : Nat,
      ((CircuitValidator.assignIds j (CircuitValidator.checks cs conns)).filter
        (fun e => e.severity = .error)).isEmpty =
      (((CircuitValidator.checks cs conns)).filter
        (fun e => e.severity = .error)).isEmpty := by
    intro j
    exact isEmpty_eq_of_length_eq (hE j).2
  simp only [CircuitValidator.ValidationResult.mk.injEq]
  exact ⟨by rw [hempty n, hempty k], by rw [(hE n).1, (hE k).1],
    by rw [(hW n).1, (hW k).1], by rw [(hI n).1, (hI k).1]⟩

/-! ## C2 and C3: the validator's short- and open-circuit faults -/

theorem mem_if_singleton {α : Type} {c : Prop} [Decidable c] {x e : α}
    (h : e ∈ (if c then [x] else [])) : e = x ∧ c := by
  split at h
  · exact ⟨List.mem_singleton.mp h, by assumption⟩
  · cases h

theorem mem_assignIds (e : CircuitError) :
    ∀ (l : List CircuitError), e ∈ l → ∀ n : Nat,
      ∃ e' ∈ CircuitValidator.assignIds n l,
        e'.type = e.type ∧ e'.severity = e.severity ∧
        e'.affectedComponents = e.affectedComponents ∧
        e'.affectedConnections = e.affectedConnections := by
  intro l
  induction l with
  | nil => intro h; cases h
  | cons a rest ih =>
      intro h n
      rcases List.mem_cons.mp h with rfl | hmem
      · exact ⟨{ e with id := CircuitValidator.errId (n + 1) },
          by simp [CircuitValidator.assignIds], rfl, rfl, rfl, rfl⟩
      · obtain ⟨e', he', hp⟩ := ih hmem (n + 1)
        exact ⟨e', by simp [CircuitValidator.assignIds, he'], hp⟩

theorem mem_assignIds_rev (e' : CircuitError) :
    ∀ (l : List CircuitError) (n : Nat), e' ∈ CircuitValidator.assignIds n l →
      ∃ e ∈ l,
        e'.type = e.type ∧ e'.severity = e.severity ∧
        e'.affectedComponents = e.affectedComponents ∧
        e'.affectedConnections = e.affectedConnections := by
  intro l
  induction l with
  | nil => intro n h; cases h
  | cons a rest ih =>
      intro n h
      rcases List.mem_cons.mp h with rfl | hmem
      · exact ⟨a, by simp, rfl, rfl, rfl, rfl⟩
      · obtain ⟨e, he, hp⟩ := ih (n + 1) hmem
        exact ⟨e, by simp [he], hp⟩

theorem mem_validate_errors (cs : List Component) (conns : List Connection) (n : Nat)
    (e : CircuitError) (he : e ∈ CircuitValidator.checks cs conns)
    (hsev : e.severity = .error) :
    ∃ e' ∈ (CircuitValidator.validateCircuit cs conns n).1.errors,
      e'.type = e.type ∧ e'.severity = .error ∧
      e'.affectedComponents = e.affectedComponents ∧
      e'.affectedConnections = e.affectedConnections := by
  obtain ⟨e', he', ht, hs, hac, hconn⟩ := mem_assignIds e (CircuitValidator.checks cs conns) he n
  refine ⟨e', ?_, ht, by rw [hs, hsev], hac, hconn⟩
  unfold CircuitValidator.validateCircuit
  dsimp only
  exact List.mem_filter.mpr ⟨he', by simp [hs, hsev]⟩

theorem mem_validate_errors_rev (cs : List Component) (conns : List Connection) (n : Nat)
    (e' : CircuitError) (he' : e' ∈ (CircuitValidator.validateCircuit cs conns n).1.errors) :
    ∃ e ∈ CircuitValidator.checks cs conns,
      e'.type = e.type ∧ e'.severity = e.severity ∧
      e'.affectedComponents = e.affectedComponents ∧
      e'.affectedConnections = e.affectedConnections := by
  unfold CircuitValidator.validateCircuit at he'
  dsimp only at he'
  exact mem_assignIds_rev e' (CircuitValidator.checks cs conns) n
    (List.mem_filter.mp he').1

theorem type_of_short (cs : List Component) (conns : List Connection) (e : CircuitError)
    (h : e ∈ CircuitValidator.checkForShortCircuits cs conns) :
    e.type = .short_circuit := by
  unfold CircuitValidator.checkForShortCircuits at h
  rcases List.mem_flatMap.mp h with ⟨b, -, h2⟩
  rcases List.mem_flatMap.mp h2 with ⟨p, -, h3⟩
  obtain ⟨rfl, -⟩ := mem_if_singleton h3
  rfl

theorem mem_open_iff (cs : List Component) (conns : List Connection) (e : CircuitError) :
    e ∈ CircuitValidator.checkForOpenCircuits cs conns ↔
      ∃ b ∈ CircuitSimulator.batteriesOf cs,
        (CircuitValidator.findCompletePaths b.id "positive" "negative" cs conns).isEmpty
          = true ∧
        e.type = .open_circuit ∧ e.severity = .error ∧
        e.affectedComponents = [b.id] ∧ e.affectedConnections = [] ∧
        e ∈ CircuitValidator.checkForOpenCircuits cs conns := by
  constructor
  · intro h
    have h0 := h
    unfold CircuitValidator.checkForOpenCircuits at h
    rcases List.mem_flatMap.mp h with ⟨b, hb, h2⟩
    obtain ⟨rfl, hc⟩ := mem_if_singleton h2
    exact ⟨b, hb, by simpa using hc, rfl, rfl, rfl, rfl, h0⟩
  · rintro ⟨b, -, -, -, -, -, -, h⟩
    exact h

theorem open_error_of_no_path (cs : List Component) (conns : List Connection)
    (b : Component) (hb : b ∈ CircuitSimulator.batteriesOf cs)
    (hempty : CircuitValidator.findCompletePaths b.id "positive" "negative" cs conns = []) :
    ∃ e ∈ CircuitValidator.checkForOpenCircuits cs conns,
      e.type = .open_circuit ∧ e.severity = .error ∧
      e.affectedComponents = [b.id] ∧ e.affectedConnections = [] := by
  refine ⟨CircuitValidator.openCircuitError b, ?_, rfl, rfl, rfl, rfl⟩
  unfold CircuitValidator.checkForOpenCircuits
  refine List.mem_flatMap.mpr ⟨b, hb, ?_⟩
  rw [if_pos (by simp [hempty])]
  exact List.mem_singleton.mpr rfl

theorem type_of_power (cs : List Component) (e : CircuitError)
    (h : e ∈ CircuitValidator.checkForPowerSources cs) : e.type = .no_power_source := by
  unfold CircuitValidator.checkForPowerSources at h
  obtain ⟨rfl, -⟩ := mem_if_singleton h
  rfl

theorem type_of_disconnected (cs : List Component) (conns : List Connection)
    (e : CircuitError) (h : e ∈ CircuitValidator.checkForDisconnectedComponents cs conns) :
    e.type = .disconnected_component := by
  unfold CircuitValidator.checkForDisconnectedComponents at h
  rcases List.mem_flatMap.mp h with ⟨c, -, h2⟩
  obtain ⟨rfl, -⟩ := mem_if_singleton h2
  rfl

theorem type_of_invalid (cs : List Component) (conns : List Connection)
    (e : CircuitError) (h : e ∈ CircuitValidator.checkForInvalidConnections cs conns) :
    e.type = .invalid_connection := by
  unfold CircuitValidator.checkForInvalidConnections at h
  rcases List.mem_flatMap.mp h with ⟨c, -, h2⟩
  cases hf : CircuitSimulator.componentMapGet cs c.fromComponent with
  | none =>
      rw [hf] at h2
      obtain rfl := List.mem_singleton.mp h2
      rfl
  | some fc =>
      cases ht2 : CircuitSimulator.componentMapGet cs c.toComponent with
      | none =>
          rw [hf, ht2] at h2
          obtain rfl := List.mem_singleton.mp h2
          rfl
      | some tc =>
          rw [hf, ht2] at h2
          obtain ⟨rfl, -⟩ := mem_if_singleton h2
          rfl

theorem type_of_overload (cs : List Component) (conns : List Connection)
    (e : CircuitError) (h : e ∈ CircuitValidator.checkForComponentOverloads cs conns) :
    e.type = .component_overload := by
  unfold CircuitValidator.checkForComponentOverloads at h
  rcases List.mem_flatMap.mp h with ⟨b, -, h2⟩
  dsimp only at h2
  split at h2
  · rcases List.mem_flatMap.mp h2 with ⟨led, -, h3⟩
    obtain ⟨rfl, -⟩ := mem_if_singleton h3
    rfl
  · cases h2

theorem type_of_reverse (cs : List Component) (conns : List Connection)
    (e : CircuitError) (h : e ∈ CircuitValidator.checkForReversePolarity cs conns) :
    e.type = .reverse_polarity := by
  unfold CircuitValidator.checkForReversePolarity at h
  rcases List.mem_flatMap.mp h with ⟨led, -, h2⟩
  rcases List.mem_flatMap.mp h2 with ⟨ac, -, h3⟩
  dsimp only at h3
  cases hfc : findComponent cs (if ac.fromComponent = led.id then ac.toComponent
      else ac.fromComponent) with
  | none => rw [hfc] at h3; cases h3
  | some comp =>
      rw [hfc] at h3
      obtain ⟨rfl, -⟩ := mem_if_singleton h3
      rfl

theorem type_of_missing (cs : List Component) (conns : List Connection)
    (e : CircuitError) (h : e ∈ CircuitValidator.checkForMissingCurrentLimiting cs conns) :
    e.type = .missing_current_limiting := by
  unfold CircuitValidator.checkForMissingCurrentLimiting at h
  rcases List.mem_flatMap.mp h with ⟨led, -, h2⟩
  obtain ⟨rfl, -⟩ := mem_if_singleton h2
  rfl

theorem type_of_floating (cs : List Component) (conns : List Connection)
    (e : CircuitError) (h : e ∈ CircuitValidator.checkForFloatingNodes cs conns) :
    e.type = .floating_node := by
  unfold CircuitValidator.checkForFloatingNodes at h
  rcases List.mem_flatMap.mp h with ⟨k, -, h2⟩
  split at h2
  · dsimp only at h2
    cases hfc : findComponent cs (keyComponent k) with
    | none => rw [hfc] at h2; cases h2
    | some comp =>
        rw [hfc] at h2
        obtain ⟨rfl, -⟩ := mem_if_singleton h2
        rfl
  · cases h2

theorem type_of_duplicate (conns : List Connection) (e : CircuitError)
    (h : e ∈ CircuitValidator.checkForDuplicateConnections conns) :
    e.type = .duplicate_connection := by
  unfold CircuitValidator.checkForDuplicateConnections at h
  rcases List.mem_flatMap.mp h with ⟨k, -, h2⟩
  obtain ⟨rfl, -⟩ := mem_if_singleton h2
  rfl

theorem open_of_mem_checks (cs : List Component) (conns : List Connection)
    (e : CircuitError) (he : e ∈ CircuitValidator.checks cs conns)
    (ht : e.type = .open_circuit) :
    e ∈ CircuitValidator.checkForOpenCircuits cs conns := by
  unfold CircuitValidator.checks at he
  rcases List.mem_append.mp he with he | hlast
  rotate_left
  · rw [type_of_duplicate conns e hlast] at ht; cases ht
  rcases List.mem_append.mp he with he | h9
  rotate_left
  · rw [type_of_floating cs conns e h9] at ht; cases ht
  rcases List.mem_append.mp he with he | h8
  rotate_left
  · rw [type_of_missing cs conns e h8] at ht; cases ht
  rcases List.mem_append.mp he with he | h7
  rotate_left
  · rw [type_of_reverse cs conns e h7] at ht; cases ht
  rcases List.mem_append.mp he with he | h6
  rotate_left
  · rw [type_of_overload cs conns e h6] at ht; cases ht
  rcases List.mem_append.mp he with he | h5
  rotate_left
  · rw [type_of_invalid cs conns e h5] at ht; cases ht
  rcases List.mem_append.mp he with he | h4
  rotate_left
  · rw [type_of_disconnected cs conns e h4] at ht; cases ht
  rcases List.mem_append.mp he with he | h3
  rotate_left
  · rw [type_of_power cs e h3] at ht; cases ht
  rcases List.mem_append.mp he with h1 | h2
  · rw [type_of_short cs conns e h1] at ht; cases ht
  · exact h2

/-- **C3.** For every battery, the validator's output contains an
open-circuit error of severity error referencing exactly that battery if and
only if the bounded DFS (`findCompletePaths`: 8-hop cap, no reused
connection, no revisited component) finds no path from the battery's
positive terminal to its negative terminal. -/
theorem claim_C3 (cs : List Component) (conns : List Connection) (n : Nat) :
    ∀ b ∈ CircuitSimulator.batteriesOf cs,
      (CircuitValidator.findCompletePaths b.id "positive" "negative" cs conns = [] ↔
        ∃ e ∈ (CircuitValidator.validateCircuit cs conns n).1.errors,
          e.type = .open_circuit ∧ e.severity = .error ∧
          e.affectedComponents = [b.id]) := by
  intro b hb
  constructor
  · intro hempty
    obtain ⟨e, he, ht, hs, hac, -⟩ := open_error_of_no_path cs conns b hb hempty
    have hmem : e ∈ CircuitValidator.checks cs conns := by
      unfold CircuitValidator.checks
      simp [he]
    obtain ⟨e', he', ht', hs', hac', -⟩ := mem_validate_errors cs conns n e hmem hs
    exact ⟨e', he', by rw [ht', ht], hs', by rw [hac', hac]⟩
  · rintro ⟨e', he', ht', hs', hac'⟩
    obtain ⟨e, he, ht0, -, hac0, -⟩ := mem_validate_errors_rev cs conns n e' he'
    have hto : e.type = .open_circuit := by rw [← ht0, ht']
    have hoc := open_of_mem_checks cs conns e he hto
    rcases (mem_open_iff cs conns e).mp hoc with ⟨b', -, hbempty, -, -, hacb, -, -⟩
    have hid : b'.id = b.id := by
      have hcc : ([b.id] : List String) = [b'.id] := by
        rw [← hac', hac0, hacb]
      simpa using hcc.symm
    rw [← hid]
    cases hcase : CircuitValidator.findCompletePaths b'.id "positive" "negative" cs conns with
    | nil => rfl
    | cons p ps =>
        rw [hcase] at hbempty
        cases hbempty

/-- **C3 witness**: a lone battery has no complete path and the validator
reports exactly the open-circuit error referencing it. -/
theorem claim_C3_witness :
    CircuitValidator.findCompletePaths "battery1" "positive" "negative" [sampleBattery] []
      = [] ∧
    ∃ e ∈ (CircuitValidator.validateCircuit [sampleBattery] [] 0).1.errors,
      e.type = .open_circuit ∧ e.severity = .error ∧
      e.affectedComponents = ["battery1"] := by
  have hb : sampleBattery ∈ CircuitSimulator.batteriesOf [sampleBattery] := by decide
  have h := (claim_C3 [sampleBattery] [] 0 sampleBattery hb).mp (by with_unfolding_all rfl)
  exact ⟨by with_unfolding_all rfl, h⟩

theorem short_error_of_path (cs : List Component) (conns : List Connection)
    (b : Component) (hb : b ∈ CircuitSimulator.batteriesOf cs)
    (path : List PathEntry)
    (hpath : path ∈ CircuitValidator.findDirectPaths b.id "positive" "negative" cs conns [])
    (hres : CircuitValidator.calculatePathResistance path cs < 1) :
    CircuitValidator.shortCircuitError b path ∈
      CircuitValidator.checkForShortCircuits cs conns := by
  unfold CircuitValidator.checkForShortCircuits
  refine List.mem_flatMap.mpr ⟨b, hb, List.mem_flatMap.mpr ⟨path, hpath, ?_⟩⟩
  rw [if_pos hres]
  exact List.mem_singleton.mpr rfl

set_option maxRecDepth 4000 in
/-- **C2.** (i) For every battery and every path enumerated by the bounded
DFS (`findDirectPaths`: from the positive terminal back to the negative one,
never reusing a connection, path length capped at 8) whose summed resistance
(`calculatePathResistance`: resistors at face value, wires at 0.01 Ω, other
kinds free) is below 1 Ω, the validator's output contains a short-circuit
error of severity error referencing the path's components and connections.
(ii) A battery whose terminals are joined only by a bare wire always yields
such an error, whatever the components' electrical property values. -/
theorem claim_C2 (cs : List Component) (conns : List Connection) (n : Nat) :
    (∀ b ∈ CircuitSimulator.batteriesOf cs,
      ∀ path ∈ CircuitValidator.findDirectPaths b.id "positive" "negative" cs conns [],
        CircuitValidator.calculatePathResistance path cs < 1 →
        ∃ e ∈ (CircuitValidator.validateCircuit cs conns n).1.errors,
          e.type = .short_circuit ∧ e.severity = .error ∧
          e.affectedComponents = path.map PathEntry.componentId ∧
          e.affectedConnections = (path.drop 1).filterMap PathEntry.connectionId) ∧
    (∀ (b w : Component) (c1 c2 : Connection),
      b.id = "battery1" → b.kind = .battery → w.id = "wire1" → w.kind = .wire →
      w.wirePoints = 2 →
      c1 = ⟨"c1", "battery1", "positive", "wire1", "start"⟩ →
      c2 = ⟨"c2", "wire1", "end", "battery1", "negative"⟩ →
      ∃ e ∈ (CircuitValidator.validateCircuit [b, w] [c1, c2] n).1.errors,
        e.type = .short_circuit ∧ e.severity = .error ∧
        e.affectedComponents = ["battery1", "wire1", "battery1"] ∧
        e.affectedConnections = ["c1", "c2"]) := by
  have hpart1 : ∀ (cs : List Component) (conns : List Connection),
      ∀ b ∈ CircuitSimulator.batteriesOf cs,
      ∀ path ∈ CircuitValidator.findDirectPaths b.id "positive" "negative" cs conns [],
        CircuitValidator.calculatePathResistance path cs < 1 →
        ∃ e ∈ (CircuitValidator.validateCircuit cs conns n).1.errors,
          e.type = .short_circuit ∧ e.severity = .error ∧
          e.affectedComponents = path.map PathEntry.componentId ∧
          e.affectedConnections = (path.drop 1).filterMap PathEntry.connectionId := by
    intro cs conns b hb path hpath hres
    have hmem : CircuitValidator.shortCircuitError b path ∈
        CircuitValidator.checks cs conns := by
      unfold CircuitValidator.checks
      simp [short_error_of_path cs conns b hb path hpath hres]
    obtain ⟨e', he', ht', hs', hac', hconn'⟩ :=
      mem_validate_errors cs conns n _ hmem rfl
    exact ⟨e', he', ht', hs', hac', hconn'⟩
  refine ⟨hpart1 cs conns, ?_⟩
  intro b w c1 c2 hbid hbk hwid hwk hwp hc1 hc2
  subst hc1
  subst hc2
  obtain ⟨bid, bkind, bres, bvolt, bfv, blit, bbr, bwp⟩ := b
  obtain ⟨wid, wkind, wres, wvolt, wfv, wlit, wbr, wwp⟩ := w
  dsimp only at hbid hbk hwid hwk hwp
  subst hbid
  subst hbk
  subst hwid
  subst hwk
  subst hwp
  have hb : (⟨"battery1", .battery, bres, bvolt, bfv, blit, bbr, bwp⟩ : Component) ∈
      CircuitSimulator.batteriesOf
        [⟨"battery1", .battery, bres, bvolt, bfv, blit, bbr, bwp⟩,
          ⟨"wire1", .wire, wres, wvolt, wfv, wlit, wbr, 2⟩] := by
    simp [CircuitSimulator.batteriesOf, List.filter]
  have hpath : [(⟨"battery1", none⟩ : PathEntry), ⟨"wire1", some "c1"⟩,
      ⟨"battery1", some "c2"⟩] ∈ CircuitValidator.findDirectPaths
      (⟨"battery1", .battery, bres, bvolt, bfv, blit, bbr, bwp⟩ : Component).id
      "positive" "negative"
      [⟨"battery1", .battery, bres, bvolt, bfv, blit, bbr, bwp⟩,
        ⟨"wire1", .wire, wres, wvolt, wfv, wlit, wbr, 2⟩]
      [⟨"c1", "battery1", "positive", "wire1", "start"⟩,
        ⟨"c2", "wire1", "end", "battery1", "negative"⟩] [] := by
    have hpathEq : CircuitValidator.findDirectPaths "battery1" "positive" "negative"
        [⟨"battery1", .battery, bres, bvolt, bfv, blit, bbr, bwp⟩,
          ⟨"wire1", .wire, wres, wvolt, wfv, wlit, wbr, 2⟩]
        [⟨"c1", "battery1", "positive", "wire1", "start"⟩,
          ⟨"c2", "wire1", "end", "battery1", "negative"⟩] [] =
        [[⟨"battery1", none⟩, ⟨"wire1", some "c1"⟩, ⟨"battery1", some "c2"⟩]] := by
      with_unfolding_all rfl
    rw [show (⟨"battery1", .battery, bres, bvolt, bfv, blit, bbr, bwp⟩ : Component).id =
      "battery1" from rfl, hpathEq]
    exact List.mem_singleton.mpr rfl
  have hres : CircuitValidator.calculatePathResistance
      [⟨"battery1", none⟩, ⟨"wire1", some "c1"⟩, ⟨"battery1", some "c2"⟩]
      [⟨"battery1", .battery, bres, bvolt, bfv, blit, bbr, bwp⟩,
        ⟨"wire1", .wire, wres, wvolt, wfv, wlit, wbr, 2⟩] < 1 := by
    simp [CircuitValidator.calculatePathResistance, findComponent,
      List.foldl, List.find?]
    norm_num
  obtain ⟨e', he', ht', hs', hac', hconn'⟩ := hpart1
    [⟨"battery1", .battery, bres, bvolt, bfv, blit, bbr, bwp⟩,
      ⟨"wire1", .wire, wres, wvolt, wfv, wlit, wbr, 2⟩]
    [⟨"c1", "battery1", "positive", "wire1", "start"⟩,
      ⟨"c2", "wire1", "end", "battery1", "negative"⟩]
    ⟨"battery1", .battery, bres, bvolt, bfv, blit, bbr, bwp⟩ hb _ hpath hres
  exact ⟨e', he', ht', hs', hac', hconn'⟩

/-- **C2 witness**: the 9 V battery bridged by a bare wire yields a
short-circuit error referencing battery–wire–battery and both connections. -/
theorem claim_C2_witness :
    ∃ e ∈ (CircuitValidator.validateCircuit [sampleBattery, sampleWire] wireConns 0).1.errors,
      e.type = .short_circuit ∧ e.severity = .error ∧
      e.affectedComponents = ["battery1", "wire1", "battery1"] ∧
      e.affectedConnections = ["c1", "c2"] := by
  obtain ⟨-, h2⟩ := claim_C2 [] [] 0
  exact h2 sampleBattery sampleWire ⟨"c1", "battery1", "positive", "wire1", "start"⟩
    ⟨"c2", "wire1", "end", "battery1", "negative"⟩ rfl rfl rfl rfl rfl rfl rfl

/-! ## Node-grouping correctness (for the node-construction claim) -/

namespace CircuitSimulator

theorem lookupT2N_nil (k : String) : lookupT2N [] k = none := rfl

theorem lookupT2N_cons (a : String × Nat) (m : List (String × Nat)) (x : String) :
    lookupT2N (a :: m) x = if a.1 = x then some a.2 else lookupT2N m x := by
  unfold lookupT2N
  by_cases h : a.1 = x
  · rw [if_pos h, List.find?_cons_of_pos _ (by simp [h])]
    rfl
  · rw [if_neg h, List.find?_cons_of_neg _ (by simp [h])]

theorem lookupT2N_append (l1 l2 : List (String × Nat)) (k : String) :
    lookupT2N (l1 ++ l2) k = (lookupT2N l1 k).or (lookupT2N l2 k) := by
  unfold lookupT2N
  rw [List.find?_append]
  cases List.find? (fun p => p.1 = k) l1 <;> rfl

theorem lookupT2N_singleton (kk : String) (v : Nat) (k : String) :
    lookupT2N [(kk, v)] k = if k = kk then some v else none := by
  rw [show ([(kk, v)] : List (String × Nat)) = (kk, v) :: [] from rfl, lookupT2N_cons]
  by_cases h : k = kk
  · rw [if_pos h, if_pos h.symm]
  · rw [if_neg h, if_neg (fun hh => h hh.symm), lookupT2N_nil]

theorem lookupT2N_isSome (l : List (String × Nat)) (k : String) :
    (lookupT2N l k).isSome = (List.find? (fun p => p.1 = k) l).isSome := by
  unfold lookupT2N
  cases List.find? (fun p => p.1 = k) l <;> rfl

theorem lookupT2N_map_set (m : List (String × Nat)) (k : String) (v : Nat) (x : String) :
    lookupT2N (m.map (fun p => if p.1 = k then (k, v) else p)) x =
      if x = k then (lookupT2N m k).map (fun _ => v) else lookupT2N m x := by
  induction m with
  | nil => by_cases h : x = k <;> simp [h, lookupT2N]
  | cons a m ih =>
    simp only [List.map_cons, lookupT2N_cons, ih]
    by_cases haK : a.1 = k <;> by_cases hxk : x = k <;> by_cases hax : a.1 = x <;>
      simp_all

theorem lookupT2N_t2nSet (m : List (String × Nat)) (k : String) (v : Nat) (x : String) :
    lookupT2N (t2nSet m k v) x = if x = k then some v else lookupT2N m x := by
  unfold t2nSet
  by_cases hs : (List.find? (fun p => p.1 = k) m).isSome
  · rw [if_pos hs, lookupT2N_map_set]
    by_cases hxk : x = k
    · rw [if_pos hxk, if_pos hxk]
      have h2 : (lookupT2N m k).isSome := by rw [lookupT2N_isSome]; exact hs
      obtain ⟨w, hw⟩ := Option.isSome_iff_exists.mp h2
      rw [hw]
      rfl
    · rw [if_neg hxk, if_neg hxk]
  · rw [if_neg hs, lookupT2N_append, lookupT2N_singleton]
    by_cases hxk : x = k
    · rw [if_pos hxk, if_pos hxk]
      have h2 : lookupT2N m x = none := by
        rw [hxk]
        exact Option.not_isSome_iff_eq_none.mp (by rw [lookupT2N_isSome]; exact hs)
      rw [h2]
      rfl
    · rw [if_neg hxk, if_neg hxk]
      exact Option.or_none

theorem lookupT2N_foldl_set (ts : List String) (fid : Nat) :
    ∀ (m : List (String × Nat)) (x : String),
      lookupT2N (ts.foldl (fun m k => t2nSet m k fid) m) x =
        if x ∈ ts then some fid else lookupT2N m x := by
  induction ts with
  | nil => intro m x; simp
  | cons t ts ih =>
    intro m x
    rw [List.foldl_cons, ih, lookupT2N_t2nSet]
    by_cases h1 : x ∈ ts
    · rw [if_pos h1, if_pos (List.mem_cons.mpr (Or.inr h1))]
    · rw [if_neg h1]
      by_cases h2 : x = t
      · rw [if_pos h2, if_pos (List.mem_cons.mpr (Or.inl h2))]
      · rw [if_neg h2, if_neg (by simp [h1, h2])]

theorem mem_setInsert (l : List String) (x y : String) :
    y ∈ setInsert l x ↔ y ∈ l ∨ y = x := by
  unfold setInsert
  by_cases h : x ∈ l
  · rw [if_pos h]
    constructor
    · exact Or.inl
    · rintro (hy | rfl)
      exacts [hy, h]
  · rw [if_neg h]
    simp

theorem mem_foldl_setInsert (ts : List String) :
    ∀ (l : List String) (y : String), y ∈ ts.foldl setInsert l ↔ y ∈ l ∨ y ∈ ts := by
  induction ts with
  | nil => intro l y; simp
  | cons t ts ih =>
    intro l y
    rw [List.foldl_cons, ih, mem_setInsert]
    simp [or_assoc]

theorem find?_groups_eq {groups : List (Nat × List String)}
    (hn : (groups.map Prod.fst).Nodup) {g : Nat} {ts : List String}
    (h : (g, ts) ∈ groups) :
    groups.find? (fun x => x.1 = g) = some (g, ts) := by
  induction groups with
  | nil => cases h
  | cons a l ih =>
    rw [List.map_cons, List.nodup_cons] at hn
    rcases List.mem_cons.mp h with rfl | hmem
    · exact List.find?_cons_of_pos _ (by simp)
    · have hag : a.1 ≠ g := by
        intro he
        exact hn.1 (by rw [he]; exact List.mem_map.mpr ⟨(g, ts), hmem, rfl⟩)
      rw [List.find?_cons_of_neg _ (by simp [hag])]
      exact ih hn.2 hmem

theorem groups_eq_of_fst {groups : List (Nat × List String)}
    (hn : (groups.map Prod.fst).Nodup) {g : Nat} {ts ts' : List String}
    (h : (g, ts) ∈ groups) (h' : (g, ts') ∈ groups) : ts = ts' := by
  have h1 := find?_groups_eq hn h
  have h2 := find?_groups_eq hn h'
  rw [h1] at h2
  simpa using h2

theorem groups_eq_of_fst_eq {groups : List (Nat × List String)}
    (hn : (groups.map Prod.fst).Nodup) {x y : Nat × List String}
    (hx : x ∈ groups) (hy : y ∈ groups) (hxy : x.1 = y.1) : x = y := by
  obtain ⟨x1, x2⟩ := x
  obtain ⟨y1, y2⟩ := y
  dsimp only at hxy
  subst hxy
  rw [groups_eq_of_fst hn hx hy]

end CircuitSimulator

theorem eqvGen_connRel_nil {a b : String} :
    Relation.EqvGen (connRel []) a b ↔ a = b := by
  constructor
  · intro h
    induction h with
    | rel x y hxy => obtain ⟨c, hc, -⟩ := hxy; cases hc
    | refl x => rfl
    | symm x y _ ih => exact ih.symm
    | trans x y z _ _ ih1 ih2 => exact ih1.trans ih2
  · rintro rfl
    exact Relation.EqvGen.refl a

theorem eqvGen_connRel_mono {p q : List Connection} (hpq : ∀ c ∈ p, c ∈ q)
    {a b : String} (h : Relation.EqvGen (connRel p) a b) :
    Relation.EqvGen (connRel q) a b := by
  induction h with
  | rel x y hxy =>
    obtain ⟨c, hc, hx⟩ := hxy
    exact Relation.EqvGen.rel x y ⟨c, hpq c hc, hx⟩
  | refl x => exact Relation.EqvGen.refl x
  | symm x y _ ih => exact Relation.EqvGen.symm _ _ ih
  | trans x y z _ _ ih1 ih2 => exact Relation.EqvGen.trans _ _ _ ih1 ih2

theorem eqvGen_connRel_snoc (p : List Connection) (c : Connection) (a b : String) :
    Relation.EqvGen (connRel (p ++ [c])) a b ↔
      Relation.EqvGen (connRel p) a b ∨
      (Relation.EqvGen (connRel p) a c.fromKey ∧ Relation.EqvGen (connRel p) c.toKey b) ∨
      (Relation.EqvGen (connRel p) a c.toKey ∧ Relation.EqvGen (connRel p) c.fromKey b) := by
  constructor
  · intro h
    induction h with
    | rel x y hxy =>
      obtain ⟨d, hd, hx⟩ := hxy
      rcases List.mem_append.mp hd with hd | hd
      · exact Or.inl (Relation.EqvGen.rel x y ⟨d, hd, hx⟩)
      · rcases List.mem_singleton.mp hd with rfl
        rcases hx with ⟨rfl, rfl⟩ | ⟨rfl, rfl⟩
        · exact Or.inr (Or.inl ⟨Relation.EqvGen.refl _, Relation.EqvGen.refl _⟩)
        · exact Or.inr (Or.inr ⟨Relation.EqvGen.refl _, Relation.EqvGen.refl _⟩)
    | refl x => exact Or.inl (Relation.EqvGen.refl x)
    | symm x y _ ih =>
      rcases ih with h1 | ⟨h1, h2⟩ | ⟨h1, h2⟩
      · exact Or.inl (Relation.EqvGen.symm _ _ h1)
      · exact Or.inr (Or.inr ⟨Relation.EqvGen.symm _ _ h2, Relation.EqvGen.symm _ _ h1⟩)
      · exact Or.inr (Or.inl ⟨Relation.EqvGen.symm _ _ h2, Relation.EqvGen.symm _ _ h1⟩)
    | trans x y z _ _ ih1 ih2 =>
      rcases ih1 with h1 | ⟨h1, h2⟩ | ⟨h1, h2⟩ <;>
        rcases ih2 with h3 | ⟨h3, h4⟩ | ⟨h3, h4⟩
      · exact Or.inl (Relation.EqvGen.trans _ _ _ h1 h3)
      · exact Or.inr (Or.inl ⟨Relation.EqvGen.trans _ _ _ h1 h3, h4⟩)
      · exact Or.inr (Or.inr ⟨Relation.EqvGen.trans _ _ _ h1 h3, h4⟩)
      · exact Or.inr (Or.inl ⟨h1, Relation.EqvGen.trans _ _ _ h2 h3⟩)
      · exact Or.inl (Relation.EqvGen.trans _ _ _ (Relation.EqvGen.trans _ _ _
          (Relation.EqvGen.trans _ _ _ h1 (Relation.EqvGen.symm _ _ h3))
          (Relation.EqvGen.symm _ _ h2)) h4)
      · exact Or.inl (Relation.EqvGen.trans _ _ _ h1 h4)
      · exact Or.inr (Or.inr ⟨h1, Relation.EqvGen.trans _ _ _ h2 h3⟩)
      · exact Or.inl (Relation.EqvGen.trans _ _ _ h1 h4)
      · exact Or.inl (Relation.EqvGen.trans _ _ _ h1 (Relation.EqvGen.trans _ _ _
          (Relation.EqvGen.symm _ _ h3)
          (Relation.EqvGen.trans _ _ _ (Relation.EqvGen.symm _ _ h2) h4)))
  · have hedge : Relation.EqvGen (connRel (p ++ [c])) c.fromKey c.toKey :=
      Relation.EqvGen.rel _ _
        ⟨c, List.mem_append.mpr (Or.inr (List.mem_singleton.mpr rfl)), Or.inl ⟨rfl, rfl⟩⟩
    have hmono : ∀ {x y : String}, Relation.EqvGen (connRel p) x y →
        Relation.EqvGen (connRel (p ++ [c])) x y :=
      fun h => eqvGen_connRel_mono (fun d hd => List.mem_append.mpr (Or.inl hd)) h
    rintro (h | ⟨h1, h2⟩ | ⟨h1, h2⟩)
    · exact hmono h
    · exact Relation.EqvGen.trans _ _ _
        (Relation.EqvGen.trans _ _ _ (hmono h1) hedge) (hmono h2)
    · exact Relation.EqvGen.trans _ _ _
        (Relation.EqvGen.trans _ _ _ (hmono h1) (Relation.EqvGen.symm _ _ hedge)) (hmono h2)

theorem GoodState.iff_rel {K : List String} {R R' : String → String → Prop}
    {s : CircuitSimulator.NodeState} (h : GoodState K R s)
    (hRR : ∀ a b, R a b ↔ R' a b) : GoodState K R' s :=
  ⟨h.dom, h.ids_nodup, h.sound, h.complete,
   fun a ha b hb => (h.eqv a ha b hb).trans (hRR a b)⟩

namespace CircuitSimulator

theorem addKey_initGood {K : List String} {s : NodeState} (h : InitGood K s) (k : String) :
    InitGood (K ++ [k]) (addKey s k) := by
  unfold addKey
  cases hl : lookupT2N s.t2n k with
  | some g =>
    have hk : k ∈ K := (h.dom k).mp (by rw [hl]; rfl)
    refine ⟨?_, h.ids_nodup, h.sound, h.complete, h.nonempty, h.inj, h.bound⟩
    intro x
    rw [h.dom x]
    simp only [List.mem_append, List.mem_singleton]
    constructor
    · exact Or.inl
    · rintro (hx | rfl)
      exacts [hx, hk]
  | none =>
    have hlook : ∀ x, lookupT2N (s.t2n ++ [(k, s.counter)]) x =
        if x = k then some s.counter else lookupT2N s.t2n x := by
      intro x
      rw [lookupT2N_append, lookupT2N_singleton]
      by_cases hx : x = k
      · rw [if_pos hx, if_pos hx, hx, hl]
        rfl
      · rw [if_neg hx, if_neg hx]
        exact Option.or_none
    refine ⟨?_, ?_, ?_, ?_, ?_, ?_, ?_⟩
    · intro x
      rw [hlook x]
      by_cases hx : x = k
      · simp [hx]
      · rw [if_neg hx, h.dom x]
        simp [List.mem_append, hx]
    · rw [List.map_append]
      refine List.nodup_append.mpr ⟨h.ids_nodup, List.nodup_singleton _, ?_⟩
      intro a ha hb
      simp only [List.map_cons, List.map_nil, List.mem_singleton] at hb
      subst hb
      obtain ⟨p, hp, hpa⟩ := List.mem_map.mp ha
      obtain ⟨k', hk'⟩ := List.exists_mem_of_ne_nil _ (h.nonempty p hp)
      have hb2 := h.bound k' p.1 (h.sound p hp k' hk')
      rw [hpa] at hb2
      exact lt_irrefl _ hb2
    · intro g hg k' hk'
      rcases List.mem_append.mp hg with hg | hg
      · have hold := h.sound g hg k' hk'
        rw [hlook k', if_neg ?_]
        · exact hold
        · intro he
          rw [he, hl] at hold
          cases hold
      · rcases List.mem_singleton.mp hg with rfl
        rcases List.mem_singleton.mp hk' with rfl
        rw [hlook, if_pos rfl]
    · intro x g hg
      rw [hlook x] at hg
      by_cases hx : x = k
      · rw [if_pos hx] at hg
        rcases Option.some.inj hg with rfl
        exact ⟨[k], List.mem_append.mpr (Or.inr (List.mem_singleton.mpr rfl)),
          by rw [hx]; exact List.mem_singleton.mpr rfl⟩
      · rw [if_neg hx] at hg
        obtain ⟨ts, hts, hmem⟩ := h.complete x g hg
        exact ⟨ts, List.mem_append.mpr (Or.inl hts), hmem⟩
    · intro g hg
      rcases List.mem_append.mp hg with hg | hg
      · exact h.nonempty g hg
      · rcases List.mem_singleton.mp hg with rfl
        simp
    · intro a b g ha hb
      rw [hlook a] at ha
      rw [hlook b] at hb
      by_cases hak : a = k <;> by_cases hbk : b = k
      · rw [hak, hbk]
      · rw [if_pos hak] at ha
        rw [if_neg hbk] at hb
        rcases Option.some.inj ha with rfl
        exact absurd (h.bound b s.counter hb) (lt_irrefl _)
      · rw [if_neg hak] at ha
        rw [if_pos hbk] at hb
        rcases Option.some.inj hb with rfl
        exact absurd (h.bound a s.counter ha) (lt_irrefl _)
      · rw [if_neg hak] at ha
        rw [if_neg hbk] at hb
        exact h.inj a b g ha hb
    · intro x g hg
      rw [hlook x] at hg
      by_cases hx : x = k
      · rw [if_pos hx] at hg
        rcases Option.some.inj hg with rfl
        exact Nat.lt_succ_self _
      · rw [if_neg hx] at hg
        exact Nat.lt_succ_of_lt (h.bound x g hg)

theorem initGood_nil : InitGood [] ⟨[], [], 0⟩ := by
  refine ⟨?_, List.nodup_nil, ?_, ?_, ?_, ?_, ?_⟩
  · intro k
    simp [lookupT2N_nil]
  · intro g hg
    cases hg
  · intro k g hg
    cases hg
  · intro g hg
    cases hg
  · intro a b g ha
    cases ha
  · intro k g hg
    cases hg

theorem foldl_init_good :
    ∀ (rest : List Connection) (K : List String) (s : NodeState), InitGood K s →
      InitGood (K ++ allTerminalKeys rest)
        (rest.foldl (fun s c => addKey (addKey s c.fromKey) c.toKey) s) := by
  intro rest
  induction rest with
  | nil =>
    intro K s h
    simpa [allTerminalKeys] using h
  | cons c rest ih =>
    intro K s h
    rw [List.foldl_cons]
    have h3 := ih ((K ++ [c.fromKey]) ++ [c.toKey])
      (addKey (addKey s c.fromKey) c.toKey)
      (addKey_initGood (addKey_initGood h c.fromKey) c.toKey)
    have heq : K ++ allTerminalKeys (c :: rest) =
        ((K ++ [c.fromKey]) ++ [c.toKey]) ++ allTerminalKeys rest := by
      simp [allTerminalKeys, List.append_assoc]
    rw [heq]
    exact h3

theorem initState_good (conns : List Connection) :
    InitGood (allTerminalKeys conns) (initState conns) := by
  unfold initState
  have h := foldl_init_good conns [] ⟨[], [], 0⟩ initGood_nil
  rw [List.nil_append] at h
  exact h

theorem initGood_toGoodState {K : List String} {s : NodeState} (h : InitGood K s) :
    GoodState K (Relation.EqvGen (connRel [])) s := by
  refine GoodState.iff_rel ⟨h.dom, h.ids_nodup, h.sound, h.complete, ?_⟩
    (fun a b => eqvGen_connRel_nil.symm)
  intro a ha b hb
  constructor
  · intro hab
    obtain ⟨g, hg⟩ := Option.isSome_iff_exists.mp ((h.dom a).mpr ha)
    exact h.inj a b g hg (by rw [← hab]; exact hg)
  · rintro rfl
    rfl

end CircuitSimulator

namespace CircuitSimulator

theorem mergeConn_eq {s : NodeState} {c : Connection} {fid tid : Nat}
    (hf : lookupT2N s.t2n c.fromKey = some fid)
    (ht : lookupT2N s.t2n c.toKey = some tid) :
    mergeConn s c =
      if fid = tid then s else
        { t2n := ((((s.groups.find? (fun g => g.1 = tid)).map Prod.snd).getD []).foldl
            (fun m k => t2nSet m k fid) s.t2n),
          groups := (s.groups.map (fun g =>
            if g.1 = fid then
              (g.1, (((s.groups.find? (fun g => g.1 = tid)).map Prod.snd).getD []).foldl
                setInsert g.2)
            else g)).filter (fun g => g.1 ≠ tid),
          counter := s.counter } := by
  unfold mergeConn
  rw [hf, ht]

theorem mergeConn_good {K : List String} {p : List Connection} {s : NodeState}
    (c : Connection) (hfK : c.fromKey ∈ K) (htK : c.toKey ∈ K)
    (h : GoodState K (Relation.EqvGen (connRel p)) s) :
    GoodState K (Relation.EqvGen (connRel (p ++ [c]))) (mergeConn s c) := by
  obtain ⟨fid, hf⟩ := Option.isSome_iff_exists.mp ((h.dom _).mpr hfK)
  obtain ⟨tid, ht⟩ := Option.isSome_iff_exists.mp ((h.dom _).mpr htK)
  rw [mergeConn_eq hf ht]
  by_cases hft : fid = tid
  · rw [if_pos hft]
    subst hft
    have hRft : Relation.EqvGen (connRel p) c.fromKey c.toKey :=
      (h.eqv _ hfK _ htK).mp (by rw [hf, ht])
    refine GoodState.iff_rel h (fun a b => ?_)
    rw [eqvGen_connRel_snoc]
    constructor
    · exact Or.inl
    · rintro (hab | ⟨h1, h2⟩ | ⟨h1, h2⟩)
      · exact hab
      · exact Relation.EqvGen.trans _ _ _ (Relation.EqvGen.trans _ _ _ h1 hRft) h2
      · exact Relation.EqvGen.trans _ _ _
          (Relation.EqvGen.trans _ _ _ h1 (Relation.EqvGen.symm _ _ hRft)) h2
  · rw [if_neg hft]
    obtain ⟨tts, htts, htmem⟩ := h.complete _ _ ht
    have hfind := find?_groups_eq h.ids_nodup htts
    simp only [hfind, Option.map_some', Option.getD_some]
    have htts_iff : ∀ x, x ∈ tts ↔ lookupT2N s.t2n x = some tid := by
      intro x
      constructor
      · exact h.sound (tid, tts) htts x
      · intro hx
        obtain ⟨ts', hts', hmem'⟩ := h.complete x tid hx
        rw [groups_eq_of_fst h.ids_nodup hts' htts] at hmem'
        exact hmem'
    have hL' : ∀ x, lookupT2N (tts.foldl (fun m k => t2nSet m k fid) s.t2n) x =
        if lookupT2N s.t2n x = some tid then some fid else lookupT2N s.t2n x := by
      intro x
      rw [lookupT2N_foldl_set]
      by_cases hx : x ∈ tts
      · rw [if_pos hx, if_pos ((htts_iff x).mp hx)]
      · rw [if_neg hx, if_neg (fun hh => hx ((htts_iff x).mpr hh))]
    have hmemNew : ∀ y : Nat × List String,
        (y ∈ (s.groups.map (fun g =>
            if g.1 = fid then (g.1, tts.foldl setInsert g.2) else g)).filter
            (fun g => g.1 ≠ tid)) ↔
          ∃ x ∈ s.groups, (if x.1 = fid then (x.1, tts.foldl setInsert x.2) else x) = y ∧
            y.1 ≠ tid := by
      intro y
      rw [List.mem_filter, List.mem_map]
      constructor
      · rintro ⟨⟨x, hx, hxy⟩, hy⟩
        exact ⟨x, hx, hxy, by simpa using hy⟩
      · rintro ⟨x, hx, hxy, hy⟩
        exact ⟨⟨x, hx, hxy⟩, by simpa using hy⟩
    refine ⟨?_, ?_, ?_, ?_, ?_⟩
    · intro x
      dsimp only
      rw [hL' x]
      by_cases hx : lookupT2N s.t2n x = some tid
      · rw [if_pos hx]
        simp only [Option.isSome_some, true_iff]
        exact (h.dom x).mp (by rw [hx]; rfl)
      · rw [if_neg hx]
        exact h.dom x
    · dsimp only
      rw [List.filter_map, List.map_map]
      have hcomp : (Prod.fst ∘ fun g : Nat × List String =>
          if g.1 = fid then (g.1, tts.foldl setInsert g.2) else g) = Prod.fst := by
        funext g
        by_cases hg : g.1 = fid
        · simp [hg]
        · simp [hg]
      rw [hcomp]
      exact List.Nodup.sublist ((List.filter_sublist _).map Prod.fst) h.ids_nodup
    · intro g hg k hk
      dsimp only at hg hk ⊢
      obtain ⟨x, hx, hxy, hgtid⟩ := (hmemNew g).mp hg
      by_cases hxf : x.1 = fid
      · rw [if_pos hxf] at hxy
        subst hxy
        dsimp only at hk hgtid ⊢
        rw [hL' k]
        rcases (mem_foldl_setInsert tts x.2 k).mp hk with hk1 | hk2
        · have hold := h.sound x hx k hk1
          rw [if_neg (fun hh => hft (by
            rw [hold] at hh
            exact (hxf ▸ Option.some.inj hh : fid = tid)))]
          rw [hold, hxf]
        · rw [if_pos ((htts_iff k).mp hk2), hxf]
      · rw [if_neg hxf] at hxy
        subst hxy
        have hold := h.sound x hx k hk
        rw [hL' k]
        rw [if_neg (fun hh => hgtid (by
          rw [hold] at hh
          exact Option.some.inj hh))]
        exact hold
    · intro k g hg
      dsimp only at hg ⊢
      rw [hL' k] at hg
      by_cases hkt : lookupT2N s.t2n k = some tid
      · rw [if_pos hkt] at hg
        rcases Option.some.inj hg with rfl
        obtain ⟨fts, hfts, hfmem⟩ := h.complete _ _ hf
        refine ⟨tts.foldl setInsert fts, (hmemNew _).mpr ⟨(fid, fts), hfts, ?_, ?_⟩, ?_⟩
        · rw [if_pos rfl]
        · exact hft
        · exact (mem_foldl_setInsert tts fts k).mpr (Or.inr ((htts_iff k).mpr hkt))
      · rw [if_neg hkt] at hg
        obtain ⟨ts', hts', hmem'⟩ := h.complete k g hg
        have hgt : g ≠ tid := fun he => hkt (by rw [hg, he])
        by_cases hgf : g = fid
        · subst hgf
          refine ⟨tts.foldl setInsert ts', (hmemNew _).mpr ⟨(g, ts'), hts', ?_, ?_⟩, ?_⟩
          · rw [if_pos rfl]
          · exact hgt
          · exact (mem_foldl_setInsert tts ts' k).mpr (Or.inl hmem')
        · refine ⟨ts', (hmemNew _).mpr ⟨(g, ts'), hts', ?_, hgt⟩, hmem'⟩
          rw [if_neg hgf]
    · intro a haK b hbK
      dsimp only
      rw [hL' a, hL' b, eqvGen_connRel_snoc]
      have hRaf : Relation.EqvGen (connRel p) a c.fromKey ↔
          lookupT2N s.t2n a = some fid := by
        rw [← h.eqv a haK c.fromKey hfK, hf]
      have hRat : Relation.EqvGen (connRel p) a c.toKey ↔
          lookupT2N s.t2n a = some tid := by
        rw [← h.eqv a haK c.toKey htK, ht]
      have hRtb : Relation.EqvGen (connRel p) c.toKey b ↔
          lookupT2N s.t2n b = some tid := by
        rw [← h.eqv c.toKey htK b hbK, ht]
        exact eq_comm
      have hRfb : Relation.EqvGen (connRel p) c.fromKey b ↔
          lookupT2N s.t2n b = some fid := by
        rw [← h.eqv c.fromKey hfK b hbK, hf]
        exact eq_comm
      have hRab : Relation.EqvGen (connRel p) a b ↔
          lookupT2N s.t2n a = lookupT2N s.t2n b := (h.eqv a haK b hbK).symm
      by_cases hA : lookupT2N s.t2n a = some tid <;>
        by_cases hB : lookupT2N s.t2n b = some tid
      · rw [if_pos hA, if_pos hB]
        constructor
        · intro _
          exact Or.inl (hRab.mpr (hA.trans hB.symm))
        · intro _
          rfl
      · rw [if_pos hA, if_neg hB]
        constructor
        · intro he
          exact Or.inr (Or.inr ⟨hRat.mpr hA, hRfb.mpr he.symm⟩)
        · rintro (hab | ⟨h1, h2⟩ | ⟨h1, h2⟩)
          · exact absurd ((hRab.mp hab).symm.trans hA) hB
          · exact absurd (hRaf.mp h1)
              (fun hh => hft (Option.some.inj (hA.symm.trans hh)).symm)
          · exact (hRfb.mp h2).symm
      · rw [if_neg hA, if_pos hB]
        constructor
        · intro he
          exact Or.inr (Or.inl ⟨hRaf.mpr he, hRtb.mpr hB⟩)
        · rintro (hab | ⟨h1, h2⟩ | ⟨h1, h2⟩)
          · exact absurd ((hRab.mp hab).trans hB) hA
          · exact hRaf.mp h1
          · exact absurd (hRat.mp h1) hA
      · rw [if_neg hA, if_neg hB]
        constructor
        · intro he
          exact Or.inl (hRab.mpr he)
        · rintro (hab | ⟨h1, h2⟩ | ⟨h1, h2⟩)
          · exact hRab.mp hab
          · exact absurd (hRtb.mp h2) hB
          · exact absurd (hRat.mp h1) hA

theorem foldl_merge_good (K : List String) :
    ∀ (rest p : List Connection) (s : NodeState),
      (∀ c ∈ rest, c.fromKey ∈ K ∧ c.toKey ∈ K) →
      GoodState K (Relation.EqvGen (connRel p)) s →
      GoodState K (Relation.EqvGen (connRel (p ++ rest))) (rest.foldl mergeConn s) := by
  intro rest
  induction rest with
  | nil =>
    intro p s hK h
    simpa using h
  | cons c rest ih =>
    intro p s hK h
    rw [List.foldl_cons]
    have h2 := mergeConn_good c (hK c (List.mem_cons.mpr (Or.inl rfl))).1
      (hK c (List.mem_cons.mpr (Or.inl rfl))).2 h
    have h3 := ih (p ++ [c]) (mergeConn s c)
      (fun d hd => hK d (List.mem_cons.mpr (Or.inr hd))) h2
    rw [List.append_assoc] at h3
    simpa using h3

theorem mergedState_good (conns : List Connection) :
    GoodState (allTerminalKeys conns) (Relation.EqvGen (connRel conns))
      (mergedState conns) := by
  unfold mergedState
  have h := foldl_merge_good (allTerminalKeys conns) conns [] (initState conns)
    (fun c hc => ⟨List.mem_flatMap.mpr ⟨c, hc, by simp⟩,
      List.mem_flatMap.mpr ⟨c, hc, by simp⟩⟩)
    (initGood_toGoodState (initState_good conns))
  rw [List.nil_append] at h
  exact h

end CircuitSimulator

namespace CircuitSimulator

theorem foldl_ground_spec :
    ∀ (l : List (Nat × List String)) (g0 : Nat × List String),
      ∃ l1 l2, g0 :: l = l1 ++ (List.foldl (fun g n =>
          if (groupComponents n.2).length > (groupComponents g.2).length then n else g)
          g0 l) :: l2 ∧
        (∀ x ∈ l1, (groupComponents x.2).length <
          (groupComponents (List.foldl (fun g n =>
            if (groupComponents n.2).length > (groupComponents g.2).length then n else g)
            g0 l).2).length) ∧
        (∀ x ∈ l2, (groupComponents x.2).length ≤
          (groupComponents (List.foldl (fun g n =>
            if (groupComponents n.2).length > (groupComponents g.2).length then n else g)
            g0 l).2).length) := by
  intro l
  induction l with
  | nil =>
    intro g0
    exact ⟨[], [], rfl, by simp, by simp⟩
  | cons n l ih =>
    intro g0
    simp only [List.foldl_cons]
    by_cases hc : (groupComponents n.2).length > (groupComponents g0.2).length
    · rw [if_pos hc]
      obtain ⟨l1, l2, hsplit, hlt, hle⟩ := ih n
      have hnr : (groupComponents n.2).length ≤ (groupComponents (List.foldl (fun g n =>
          if (groupComponents n.2).length > (groupComponents g.2).length then n else g)
          n l).2).length := by
        rcases l1 with _ | ⟨a, l1'⟩
        · rcases List.cons.inj hsplit with ⟨h1, -⟩
          rw [← h1]
        · rcases List.cons.inj hsplit with ⟨h1, -⟩
          exact le_of_lt (hlt a (List.mem_cons.mpr (Or.inl rfl))) |>.trans_eq' (by rw [h1])
      refine ⟨g0 :: l1, l2, ?_, ?_, hle⟩
      · rw [List.cons_append, ← hsplit]
      · intro x hx
        rcases List.mem_cons.mp hx with rfl | hx
        · exact lt_of_lt_of_le hc hnr
        · exact hlt x hx
    · rw [if_neg hc]
      obtain ⟨l1, l2, hsplit, hlt, hle⟩ := ih g0
      rcases l1 with _ | ⟨a, l1'⟩
      · rcases List.cons.inj hsplit with ⟨h1, h2⟩
        refine ⟨[], n :: l2, ?_, by simp, ?_⟩
        · rw [List.nil_append, ← h1, ← h2]
        · intro x hx
          rcases List.mem_cons.mp hx with rfl | hx
          · rw [← h1]
            exact le_of_not_lt hc
          · exact hle x hx
      · rcases List.cons.inj hsplit with ⟨h1, h2⟩
        refine ⟨g0 :: n :: l1', l2, ?_, ?_, hle⟩
        · rw [List.cons_append, List.cons_append]
          exact congrArg (List.cons g0) (congrArg (List.cons n) h2)
        · intro x hx
          have hg0r : (groupComponents g0.2).length < (groupComponents (List.foldl (fun g n =>
              if (groupComponents n.2).length > (groupComponents g.2).length then n else g)
              g0 l).2).length := by
            nth_rewrite 1 [h1]
            exact hlt a (List.mem_cons.mpr (Or.inl rfl))
          rcases List.mem_cons.mp hx with rfl | hx
          · exact hg0r
          · rcases List.mem_cons.mp hx with rfl | hx
            · exact lt_of_le_of_lt (le_of_not_lt hc) hg0r
            · exact hlt x (List.mem_cons.mpr (Or.inr hx))
      
end CircuitSimulator

theorem node_ne_ground (s : String) : ("node_" ++ s) ≠ "ground" := by
  intro h
  have h2 := congrArg String.data h
  rw [String.data_append] at h2
  have h3 : ('n' :: 'o' :: 'd' :: 'e' :: '_' :: s.data)
      = ['g', 'r', 'o', 'u', 'n', 'd'] := h2
  simp at h3

namespace CircuitSimulator

theorem groups_ne_nil (conns : List Connection) (hne : conns ≠ []) :
    (mergedState conns).groups ≠ [] := by
  have hG := mergedState_good conns
  intro hg
  obtain ⟨c, hc⟩ := List.exists_mem_of_ne_nil conns hne
  have hfK : c.fromKey ∈ allTerminalKeys conns :=
    List.mem_flatMap.mpr ⟨c, hc, by simp⟩
  obtain ⟨fid, hf⟩ := Option.isSome_iff_exists.mp ((hG.dom _).mpr hfK)
  obtain ⟨ts, hts, -⟩ := hG.complete _ _ hf
  rw [hg] at hts
  cases hts

theorem foldl_ground_cons_self (g0 : Nat × List String) (gs : List (Nat × List String)) :
    List.foldl (fun g n =>
      if (groupComponents n.2).length > (groupComponents g.2).length then n else g)
      g0 (g0 :: gs) =
    List.foldl (fun g n =>
      if (groupComponents n.2).length > (groupComponents g.2).length then n else g)
      g0 gs := by
  rw [List.foldl_cons]
  rw [if_neg (lt_irrefl _)]

set_option maxHeartbeats 1000000 in
theorem buildCircuitNodes_ground_spec (conns : List Connection) (hne : conns ≠ []) :
    ∃ gnd : Nat × List String, gnd ∈ (mergedState conns).groups ∧
      buildCircuitNodes conns =
        (((mergedState conns).groups.filter (fun g => g.1 ≠ gnd.1)).map rawNode) ++
          [{ rawNode gnd with id := "ground", voltage := 0 }] ∧
      (∀ g ∈ (mergedState conns).groups,
        (groupComponents g.2).length ≤ (groupComponents gnd.2).length) ∧
      (∃ l1 l2, (mergedState conns).groups = l1 ++ gnd :: l2 ∧
        (∀ x ∈ l1, (groupComponents x.2).length < (groupComponents gnd.2).length) ∧
        (∀ x ∈ l2, (groupComponents x.2).length ≤ (groupComponents gnd.2).length)) := by
  cases hg : (mergedState conns).groups with
  | nil => exact absurd hg (groups_ne_nil conns hne)
  | cons g0 gs =>
    obtain ⟨L1, L2, hsplit, hlt, hle⟩ := foldl_ground_spec gs g0
    refine ⟨List.foldl (fun g n =>
        if (groupComponents n.2).length > (groupComponents g.2).length then n else g)
        g0 gs, ?_, ?_, ?_, L1, L2, hsplit, hlt, hle⟩
    · rw [hsplit]
      exact List.mem_append.mpr (Or.inr (List.mem_cons.mpr (Or.inl rfl)))
    · unfold buildCircuitNodes
      rw [if_neg (by simp [List.isEmpty_iff, hne]), hg]
      split
      · next heq => exact absurd heq (List.cons_ne_nil _ _)
      · next a l heq =>
        rcases List.cons.inj heq with ⟨rfl, rfl⟩
        dsimp only
        simp only [foldl_ground_cons_self]
    · intro g hgmem
      rw [hsplit] at hgmem
      rcases List.mem_append.mp hgmem with hx | hx
      · exact le_of_lt (hlt g hx)
      · rcases List.mem_cons.mp hx with rfl | hx
        · exact le_refl _
        · exact hle g hx

end CircuitSimulator

/-- **C6.** Node construction is as specified: with an empty connection
list no nodes are built; otherwise the terminal keys are grouped into the
equivalence classes of the connection relation (two keys share a node
exactly when the equivalence closure of the connection edges relates them,
every mentioned key lands in a node, and nodes sharing a key have identical
terminal lists); exactly one node carries the reserved id `ground`, with
voltage 0 and a maximal count of distinct member component ids, and it is
the first group in construction order attaining that maximum; and
identical input produces identical grouping and ground choice. -/
theorem claim_C6 (conns : List Connection) :
    (conns = [] → CircuitSimulator.buildCircuitNodes conns = []) ∧
    (∀ a ∈ allTerminalKeys conns, ∀ b ∈ allTerminalKeys conns,
      ((∃ node ∈ CircuitSimulator.buildCircuitNodes conns,
          a ∈ node.terminals ∧ b ∈ node.terminals) ↔
        Relation.EqvGen (connRel conns) a b)) ∧
    (∀ a ∈ allTerminalKeys conns,
      ∃ node ∈ CircuitSimulator.buildCircuitNodes conns, a ∈ node.terminals) ∧
    (∀ n1 ∈ CircuitSimulator.buildCircuitNodes conns,
      ∀ n2 ∈ CircuitSimulator.buildCircuitNodes conns,
      ∀ a, a ∈ n1.terminals → a ∈ n2.terminals → n1.terminals = n2.terminals) ∧
    (conns ≠ [] → ∃ gnode ∈ CircuitSimulator.buildCircuitNodes conns,
      gnode.id = "ground" ∧ gnode.voltage = 0 ∧
      (∀ n ∈ CircuitSimulator.buildCircuitNodes conns, n.id = "ground" → n = gnode) ∧
      (∀ n ∈ CircuitSimulator.buildCircuitNodes conns,
        n.components.length ≤ gnode.components.length) ∧
      (∃ l1 l2 m, CircuitSimulator.rawNodes conns = l1 ++ m :: l2 ∧
        m.components = gnode.components ∧ m.terminals = gnode.terminals ∧
        (∀ x ∈ l1, x.components.length < gnode.components.length) ∧
        (∀ x ∈ l2, x.components.length ≤ gnode.components.length))) ∧
    (∀ conns2, conns = conns2 →
      CircuitSimulator.buildCircuitNodes conns =
        CircuitSimulator.buildCircuitNodes conns2) := by
  by_cases hne : conns = []
  · subst hne
    refine ⟨fun _ => rfl, ?_, ?_, ?_, fun h => absurd rfl h, fun _ h => by rw [h]⟩
    · intro a ha
      simp [allTerminalKeys] at ha
    · intro a ha
      simp [allTerminalKeys] at ha
    · intro n1 h1
      simp [CircuitSimulator.buildCircuitNodes] at h1
  · obtain ⟨gnd, hgnd_mem, hbuild, hmax, L1, L2, hsplit, hlt, hle⟩ :=
      CircuitSimulator.buildCircuitNodes_ground_spec conns hne
    have hG := CircuitSimulator.mergedState_good conns
    have hnode_group : ∀ node ∈ CircuitSimulator.buildCircuitNodes conns,
        ∃ g ∈ (CircuitSimulator.mergedState conns).groups,
          node.terminals = g.2 ∧
          node.components = CircuitSimulator.groupComponents g.2 := by
      intro node hn
      rw [hbuild] at hn
      rcases List.mem_append.mp hn with hn | hn
      · obtain ⟨g, hgf, hgn⟩ := List.mem_map.mp hn
        refine ⟨g, List.mem_of_mem_filter hgf, ?_, ?_⟩
        · rw [← hgn]
          rfl
        · rw [← hgn]
          rfl
      · rcases List.mem_singleton.mp hn with rfl
        exact ⟨gnd, hgnd_mem, rfl, rfl⟩
    have hgroup_node : ∀ g ∈ (CircuitSimulator.mergedState conns).groups,
        ∃ node ∈ CircuitSimulator.buildCircuitNodes conns,
          node.terminals = g.2 ∧
          node.components = CircuitSimulator.groupComponents g.2 := by
      intro g hg
      by_cases hgid : g.1 = gnd.1
      · have hggnd : g = gnd :=
          CircuitSimulator.groups_eq_of_fst_eq hG.ids_nodup hg hgnd_mem hgid
        subst hggnd
        refine ⟨{ CircuitSimulator.rawNode g with id := "ground", voltage := 0 },
          ?_, rfl, rfl⟩
        rw [hbuild]
        exact List.mem_append.mpr (Or.inr (List.mem_singleton.mpr rfl))
      · refine ⟨CircuitSimulator.rawNode g, ?_, rfl, rfl⟩
        rw [hbuild]
        refine List.mem_append.mpr (Or.inl (List.mem_map.mpr ⟨g, ?_, rfl⟩))
        exact List.mem_filter.mpr ⟨hg, by simpa using hgid⟩
    refine ⟨fun h => absurd h hne, ?_, ?_, ?_, fun _ => ?_, fun _ h => by rw [h]⟩
    · intro a ha b hb
      constructor
      · rintro ⟨node, hn, hna, hnb⟩
        obtain ⟨g, hg, hterm, -⟩ := hnode_group node hn
        rw [hterm] at hna hnb
        exact (hG.eqv a ha b hb).mp
          ((hG.sound g hg a hna).trans (hG.sound g hg b hnb).symm)
      · intro hab
        obtain ⟨ga, hga⟩ := Option.isSome_iff_exists.mp ((hG.dom a).mpr ha)
        have hgb : CircuitSimulator.lookupT2N
            (CircuitSimulator.mergedState conns).t2n b = some ga := by
          rw [← (hG.eqv a ha b hb).mpr hab, hga]
        obtain ⟨ts, hts, hmem⟩ := hG.complete a ga hga
        obtain ⟨ts', hts', hmem'⟩ := hG.complete b ga hgb
        have hts_eq : ts' = ts :=
          CircuitSimulator.groups_eq_of_fst hG.ids_nodup hts' hts
        obtain ⟨node, hn, hterm, -⟩ := hgroup_node (ga, ts) hts
        refine ⟨node, hn, ?_, ?_⟩
        · rw [hterm]
          exact hmem
        · rw [hterm]
          rw [hts_eq] at hmem'
          exact hmem'
    · intro a ha
      obtain ⟨ga, hga⟩ := Option.isSome_iff_exists.mp ((hG.dom a).mpr ha)
      obtain ⟨ts, hts, hmem⟩ := hG.complete a ga hga
      obtain ⟨node, hn, hterm, -⟩ := hgroup_node (ga, ts) hts
      refine ⟨node, hn, ?_⟩
      rw [hterm]
      exact hmem
    · intro n1 h1 n2 h2 a ha1 ha2
      obtain ⟨g1, hg1, ht1, -⟩ := hnode_group n1 h1
      obtain ⟨g2, hg2, ht2, -⟩ := hnode_group n2 h2
      rw [ht1] at ha1
      rw [ht2] at ha2
      have hg12 : g1 = g2 := CircuitSimulator.groups_eq_of_fst_eq hG.ids_nodup hg1 hg2
        (Option.some.inj ((hG.sound g1 hg1 a ha1).symm.trans (hG.sound g2 hg2 a ha2)))
      rw [ht1, ht2, hg12]
    · refine ⟨{ CircuitSimulator.rawNode gnd with id := "ground", voltage := 0 },
        ?_, rfl, rfl, ?_, ?_, ?_⟩
      · rw [hbuild]
        exact List.mem_append.mpr (Or.inr (List.mem_singleton.mpr rfl))
      · intro n hn hid
        rw [hbuild] at hn
        rcases List.mem_append.mp hn with hn | hn
        · obtain ⟨g, hgf, hgn⟩ := List.mem_map.mp hn
          refine absurd (?_ : ("node_" ++ toString g.1 : String) = "ground")
            (node_ne_ground _)
          rw [← hid, ← hgn]
          rfl
        · exact List.mem_singleton.mp hn
      · intro n hn
        obtain ⟨g, hg, -, hcomp⟩ := hnode_group n hn
        rw [hcomp]
        exact hmax g hg
      · refine ⟨L1.map CircuitSimulator.rawNode, L2.map CircuitSimulator.rawNode,
          CircuitSimulator.rawNode gnd, ?_, rfl, rfl, ?_, ?_⟩
        · unfold CircuitSimulator.rawNodes
          rw [hsplit, List.map_append, List.map_cons]
        · intro x hx
          obtain ⟨y, hy, hyx⟩ := List.mem_map.mp hx
          rw [← hyx]
          exact hlt y hy
        · intro x hx
          obtain ⟨y, hy, hyx⟩ := List.mem_map.mp hx
          rw [← hyx]
          exact hle y hy

/-- **C6 witness**: on the battery-bridged-by-a-wire circuit, the two
connected terminals share a node, and a unique ground node with voltage 0
exists. -/
theorem claim_C6_witness :
    (∃ node ∈ CircuitSimulator.buildCircuitNodes wireConns,
      "battery1:positive" ∈ node.terminals ∧ "wire1:start" ∈ node.terminals) ∧
    (∃ gnode ∈ CircuitSimulator.buildCircuitNodes wireConns,
      gnode.id = "ground" ∧ gnode.voltage = 0) := by
  obtain ⟨-, h2, -, -, h5, -⟩ := claim_C6 wireConns
  constructor
  · refine (h2 "battery1:positive" (by decide) "wire1:start" (by decide)).mpr ?_
    exact Relation.EqvGen.rel _ _
      ⟨⟨"c1", "battery1", "positive", "wire1", "start"⟩,
        by decide, Or.inl ⟨rfl, rfl⟩⟩
  · obtain ⟨g, hg, hid, hv, -⟩ := h5 (by decide)
    exact ⟨g, hg, hid, hv⟩
